import Mathlib

/-!
# Arduino_LSM6DS3 driver: a shallow embedding of `src/LSM6DS3.cpp`

The driver talks to the sensor through the Arduino `Wire` (two-wire) or `SPI`
(serial) library, reads a millisecond clock and prints one warning.  Those
collaborators are external to the repository, so they are a parameter of the
embedding: a record `Hardware σ` of state-transforming primitives, one per
library call made by the source.  The driver functions are translated line by
line on top of it.

Conventions.
* `uint8_t` values are naturals; a store into a `uint8_t` reduces modulo 256.
* `int` results (`readRegister`, `readRegisters`, ...) are integers.
* `float` values are `Flt`: either not-a-number or the rational the float
  denotes.  Every product `raw * 4.0 / 32768.0` and `raw * 2000.0 / 32768.0` of
  a 16-bit `raw` is exactly representable (numerator below `2^24`, denominator
  a power of two), so the sample conversions lose nothing.  The additions and
  the divisions of `calibrate` round to the nearest `float`: `roundF32`.
* Automatic variables without initialiser (`int16_t data[3]`, `uint8_t value`)
  start with whatever the machine holds there: `Hardware.stack`.
* The millisecond clock is a script: the reading returned by the n-th call.
* `World.log` is a ghost trace of the register accesses the driver issues;
  `logging hw` is a transport double that records every bus primitive called,
  from which `busWrites` decodes the register writes seen on the bus.
-/

namespace LSM6DS3

/-! ## Register map (the `#define`s of the source) -/

def LSM6DS3_ADDRESS : Nat := 0x6A
def LSM6DS3_FIFO_CTRL3 : Nat := 0x08
def LSM6DS3_FIFO_CTRL5 : Nat := 0x0A
def LSM6DS3_WHO_AM_I_REG : Nat := 0x0F
def LSM6DS3_CTRL1_XL : Nat := 0x10
def LSM6DS3_CTRL2_G : Nat := 0x11
def LSM6DS3_CTRL3_C : Nat := 0x12
def LSM6DS3_STATUS_REG : Nat := 0x1E
def LSM6DS3_CTRL8_XL : Nat := 0x17
def LSM6DS3_OUTX_L_G : Nat := 0x22
def LSM6DS3_OUTX_L_XL : Nat := 0x28

/-! ## Values -/

/-- A `float` as the driver produces it: not-a-number, or an exact rational. -/
inductive Flt where
  | nan : Flt
  | num : ℚ → Flt
  deriving DecidableEq

/-- Rounding of a rational to the nearest integer, ties to the even one. -/
def roundHalfEven (x : ℚ) : Int :=
  if x - ⌊x⌋ < 1 / 2 then ⌊x⌋
  else if 1 / 2 < x - ⌊x⌋ then ⌊x⌋ + 1
  else if ⌊x⌋ % 2 = 0 then ⌊x⌋ else ⌊x⌋ + 1

/-- Rounding of a rational to the nearest `float` (IEEE binary32: 24-bit
significand, ties to even).  The exponent range is not bounded here: the values
the driver computes (sums of at most `INT_MAX` readings of magnitude at most
2000, and their means) stay far inside the normal range of the format. -/
def roundF32 (q : ℚ) : ℚ :=
  if q = 0 then 0
  else (roundHalfEven (q / 2 ^ (Int.log 2 |q| - 23)) : ℚ) * 2 ^ (Int.log 2 |q| - 23)

/-- Float addition `s + x`: the rounded sum; not-a-number is absorbing. -/
def Flt.add : Flt → Flt → Flt
  | Flt.num a, Flt.num b => Flt.num (roundF32 (a + b))
  | _, _ => Flt.nan

/-- Float division `s / n` by an `int` count: the count is converted to
`float`, the quotient is rounded.  The driver never divides by zero (infinities
are not modelled; the zero case yields not-a-number). -/
def Flt.divInt : Flt → Int → Flt
  | Flt.num a, n => if n = 0 then Flt.nan else Flt.num (roundF32 (a / roundF32 (n : ℚ)))
  | Flt.nan, _ => Flt.nan

/-- Reinterpretation of a 16-bit pattern as `int16_t` (two's complement). -/
def toInt16 (n : Nat) : Int :=
  if n % 65536 < 32768 then ((n % 65536 : Nat) : Int) else ((n % 65536 : Nat) : Int) - 65536

/-- Reinterpretation of the low `bits` bits of `n` as a signed integer: the
conversion `unsigned long → int` on a platform whose `int` has `bits` bits. -/
def toSigned (bits : Nat) (n : Nat) : Int :=
  if n % 2 ^ bits < 2 ^ (bits - 1) then ((n % 2 ^ bits : Nat) : Int)
  else ((n % 2 ^ bits : Nat) : Int) - ((2 ^ bits : Nat) : Int)

/-- Element `i` of an `int16_t` array viewed through its bytes, `data[i]` after
the `(uint8_t*)data` cast: low byte first (all Arduino targets are
little-endian). -/
def int16At (data : List Nat) (i : Nat) : Int :=
  toInt16 (data.getD (2 * i) 0 + 256 * data.getD (2 * i + 1) 0)

/-! ## Environment -/

/-- One register access issued by the driver (ghost trace entry). -/
inductive Access where
  | read : Nat → Nat → Access
  | write : Nat → Nat → Access
  deriving DecidableEq, Repr

/-- The register writes of a trace, in order, as (address, value) pairs. -/
def writesOf : List Access → List (Nat × Nat)
  | [] => []
  | Access.write a v :: t => (a, v) :: writesOf t
  | Access.read _ _ :: t => writesOf t

/-- The library calls the driver makes, as primitives over a machine state. -/
structure Hardware (σ : Type) where
  /-- Width of `int` on the target (16 on AVR, 32 on ARM). -/
  intBits : Nat
  /-- Indeterminate initial content of byte `i` of a fresh automatic variable. -/
  stack : σ → Nat → Nat
  /-- Call of `pinMode(pin, OUTPUT)` when the flag is true, `INPUT` otherwise. -/
  pinMode : Int → Bool → σ → σ
  /-- Call of `digitalWrite(pin, HIGH)` when the flag is true, `LOW` otherwise. -/
  digitalWrite : Int → Bool → σ → σ
  spiBegin : σ → σ
  spiEnd : σ → σ
  spiBeginTransaction : σ → σ
  spiEndTransaction : σ → σ
  /-- Full-duplex exchange of one byte: `_spi->transfer(b)`. -/
  spiTransfer : Nat → σ → Nat × σ
  wireBegin : σ → σ
  wireEnd : σ → σ
  wireBeginTransmission : Nat → σ → σ
  wireWrite : Nat → σ → σ
  /-- Call of `endTransmission(sendStop)`: status code, 0 when acknowledged. -/
  wireEndTransmission : Bool → σ → Nat × σ
  /-- Call of `requestFrom(address, quantity)`: number of bytes delivered. -/
  wireRequestFrom : Nat → Nat → σ → Nat × σ
  /-- Call of `read()`: next received byte, or -1. -/
  wireRead : σ → Int × σ
  serialPrintln : String → σ → σ

/-- Machine state seen by the driver: the bus side, the clock script with the
number of `millis()` calls made so far, and the ghost access trace. -/
structure World (σ : Type) where
  bus : σ
  clock : Nat → Nat
  ticks : Nat
  log : List Access

/-- Run a state-only primitive on the bus side. -/
def World.onBus {σ : Type} (w : World σ) (f : σ → σ) : World σ :=
  { w with bus := f w.bus }

/-- Append a ghost trace entry. -/
def World.record {σ : Type} (w : World σ) (a : Access) : World σ :=
  { w with log := w.log ++ [a] }

/-- Reading of `millis()`: an `unsigned long`, 32 bits. -/
def millis {σ : Type} (w : World σ) : Nat × World σ :=
  (w.clock w.ticks % 2 ^ 32, { w with ticks := w.ticks + 1 })

/-- The first `n` bytes of a fresh automatic variable. -/
def stackBuf {σ : Type} (hw : Hardware σ) (s : σ) (n : Nat) : List Nat :=
  (List.range n).map (fun i => hw.stack s i % 256)

/-! ## Device handle -/

/-- The members of `LSM6DS3Class`.  `spi` is `_spi != NULL`; the constructors
set exactly one of `_wire`, `_spi`. -/
structure LSM6DS3Class where
  spi : Bool
  slaveAddress : Nat
  csPin : Int
  irqPin : Int
  fifoEnabled : Bool
  gyroXDrift : Flt
  gyroYDrift : Flt
  gyroZDrift : Flt
  deriving DecidableEq

/-! ## Register access layer -/

/-- Call of `_spi->transfer(data, length)`: every byte of the buffer is clocked
out and replaced by the byte clocked in. -/
def spiTransferBuf {σ : Type} (hw : Hardware σ) : List Nat → σ → List Nat × σ
  | [], s => ([], s)
  | b :: bs, s =>
    ((hw.spiTransfer b s).1 % 256 :: (spiTransferBuf hw bs (hw.spiTransfer b s).2).1,
      (spiTransferBuf hw bs (hw.spiTransfer b s).2).2)

/-- The loop `for (i < length) *data++ = _wire->read();`: the bytes stored. -/
def wireReadN {σ : Type} (hw : Hardware σ) : Nat → σ → List Nat × σ
  | 0, s => ([], s)
  | n + 1, s =>
    (((hw.wireRead s).1 % 256).toNat :: (wireReadN hw n (hw.wireRead s).2).1,
      (wireReadN hw n (hw.wireRead s).2).2)

/-- Bus side of `readRegisters`: result code, buffer afterwards, new state. -/
def readRegistersBus {σ : Type} (hw : Hardware σ) (dev : LSM6DS3Class)
    (address : Nat) (data : List Nat) (length : Nat) (s : σ) : Int × List Nat × σ :=
  if dev.spi then
    let s1 := hw.spiBeginTransaction s
    let s2 := hw.digitalWrite dev.csPin false s1
    let s3 := (hw.spiTransfer (0x80 ||| address) s2).2
    let r := spiTransferBuf hw (data.take length) s3
    let s4 := hw.digitalWrite dev.csPin true r.2
    let s5 := hw.spiEndTransaction s4
    (1, r.1 ++ data.drop length, s5)
  else
    let s1 := hw.wireBeginTransmission dev.slaveAddress s
    let s2 := hw.wireWrite address s1
    let e := hw.wireEndTransmission false s2
    if e.1 ≠ 0 then (-1, data, e.2)
    else
      let q := hw.wireRequestFrom dev.slaveAddress length e.2
      if q.1 ≠ length then (0, data, q.2)
      else
        let r := wireReadN hw length q.2
        (1, r.1 ++ data.drop length, r.2)

/-- Embedding of `LSM6DS3Class::readRegisters(address, data, length)`. -/
def readRegisters {σ : Type} (hw : Hardware σ) (dev : LSM6DS3Class)
    (address : Nat) (data : List Nat) (length : Nat) (w : World σ) :
    Int × List Nat × World σ :=
  let w0 := w.record (Access.read address length)
  let r := readRegistersBus hw dev address data length w0.bus
  (r.1, r.2.1, { w0 with bus := r.2.2 })

/-- Embedding of `LSM6DS3Class::readRegister(address)`. -/
def readRegister {σ : Type} (hw : Hardware σ) (dev : LSM6DS3Class)
    (address : Nat) (w : World σ) : Int × World σ :=
  let value := stackBuf hw w.bus 1
  let r := readRegisters hw dev address value 1 w
  if r.1 ≠ 1 then (-1, r.2.2) else (((r.2.1.getD 0 0 : Nat) : Int), r.2.2)

/-- Bus side of `writeRegister`: result code and new state. -/
def writeRegisterBus {σ : Type} (hw : Hardware σ) (dev : LSM6DS3Class)
    (address value : Nat) (s : σ) : Int × σ :=
  if dev.spi then
    let s1 := hw.spiBeginTransaction s
    let s2 := hw.digitalWrite dev.csPin false s1
    let s3 := (hw.spiTransfer address s2).2
    let s4 := (hw.spiTransfer value s3).2
    let s5 := hw.digitalWrite dev.csPin true s4
    (1, hw.spiEndTransaction s5)
  else
    let s1 := hw.wireBeginTransmission dev.slaveAddress s
    let s2 := hw.wireWrite address s1
    let s3 := hw.wireWrite value s2
    let e := hw.wireEndTransmission true s3
    if e.1 ≠ 0 then (0, e.2) else (1, e.2)

/-- Embedding of `LSM6DS3Class::writeRegister(address, value)`. -/
def writeRegister {σ : Type} (hw : Hardware σ) (dev : LSM6DS3Class)
    (address value : Nat) (w : World σ) : Int × World σ :=
  let w0 := w.record (Access.write address value)
  let r := writeRegisterBus hw dev address value w0.bus
  (r.1, { w0 with bus := r.2 })

/-! ## Sample reader -/

/-- Embedding of `LSM6DS3Class::readAcceleration(x, y, z)`: return value and the
three outputs.  `!readRegisters(...)` holds exactly when the result code is 0. -/
def readAcceleration {σ : Type} (hw : Hardware σ) (dev : LSM6DS3Class) (w : World σ) :
    Int × Flt × Flt × Flt × World σ :=
  let data := stackBuf hw w.bus 6
  let r := readRegisters hw dev LSM6DS3_OUTX_L_XL data 6 w
  if r.1 = 0 then (0, Flt.nan, Flt.nan, Flt.nan, r.2.2)
  else
    (1, Flt.num ((int16At r.2.1 0 : ℚ) * 4 / 32768),
      Flt.num ((int16At r.2.1 1 : ℚ) * 4 / 32768),
      Flt.num ((int16At r.2.1 2 : ℚ) * 4 / 32768), r.2.2)

/-- Embedding of `LSM6DS3Class::accelerationAvailable()`. -/
def accelerationAvailable {σ : Type} (hw : Hardware σ) (dev : LSM6DS3Class) (w : World σ) :
    Int × World σ :=
  let r := readRegister hw dev LSM6DS3_STATUS_REG w
  if Int.land r.1 0x01 ≠ 0 then (1, r.2) else (0, r.2)

/-- Embedding of `LSM6DS3Class::readGyroscope(x, y, z)`. -/
def readGyroscope {σ : Type} (hw : Hardware σ) (dev : LSM6DS3Class) (w : World σ) :
    Int × Flt × Flt × Flt × World σ :=
  let data := stackBuf hw w.bus 6
  let r := readRegisters hw dev LSM6DS3_OUTX_L_G data 6 w
  if r.1 = 0 then (0, Flt.nan, Flt.nan, Flt.nan, r.2.2)
  else
    (1, Flt.num ((int16At r.2.1 0 : ℚ) * 2000 / 32768),
      Flt.num ((int16At r.2.1 1 : ℚ) * 2000 / 32768),
      Flt.num ((int16At r.2.1 2 : ℚ) * 2000 / 32768), r.2.2)

/-- Embedding of `LSM6DS3Class::gyroscopeAvailable()`. -/
def gyroscopeAvailable {σ : Type} (hw : Hardware σ) (dev : LSM6DS3Class) (w : World σ) :
    Int × World σ :=
  let r := readRegister hw dev LSM6DS3_STATUS_REG w
  if Int.land r.1 0x02 ≠ 0 then (1, r.2) else (0, r.2)

/-! ## Drift calibrator -/

/-- The loop test `millis() < start + calibrationTimeMs` of `calibrate`: `start`
is an `int`, the sum (taken without `int` overflow, which the language leaves
undefined) is converted to `unsigned long` for the comparison. -/
def windowOpen (now : Nat) (start calibrationTimeMs : Int) : Bool :=
  decide ((now : Int) < (start + calibrationTimeMs) % 2 ^ 32)

/-- The `while` loop of `calibrate`, with the loop state `samples`, `calSumX`,
`calSumY`, `calSumZ` as arguments.  One unit of fuel per evaluation of the loop
test; `none` when the fuel runs out before the test fails.  The counter
`samples` is a natural number (no `int` overflow); the sums are `float`
additions. -/
def calibrateLoop {σ : Type} (hw : Hardware σ) (dev : LSM6DS3Class)
    (start calibrationTimeMs : Int) :
    Nat → Nat → Flt → Flt → Flt → World σ → Option (Nat × Flt × Flt × Flt × World σ)
  | 0, _, _, _, _, _ => none
  | fuel + 1, samples, calSumX, calSumY, calSumZ, w =>
    if windowOpen (millis w).1 start calibrationTimeMs then
      if (gyroscopeAvailable hw dev (millis w).2).1 ≠ 0 then
        let g := readGyroscope hw dev (gyroscopeAvailable hw dev (millis w).2).2
        calibrateLoop hw dev start calibrationTimeMs fuel (samples + 1)
          (calSumX.add g.2.1) (calSumY.add g.2.2.1) (calSumZ.add g.2.2.2.1) g.2.2.2.2
      else
        calibrateLoop hw dev start calibrationTimeMs fuel samples calSumX calSumY calSumZ
          (gyroscopeAvailable hw dev (millis w).2).2
    else some (samples, calSumX, calSumY, calSumZ, (millis w).2)

/-- Embedding of `LSM6DS3Class::calibrate(calibrationTimeMs)`: return value, the
handle with its new drift members, and the world. -/
def calibrate {σ : Type} (hw : Hardware σ) (fuel : Nat) (calibrationTimeMs : Int)
    (dev : LSM6DS3Class) (w : World σ) : Option (Bool × LSM6DS3Class × World σ) :=
  let start := toSigned hw.intBits (millis w).1
  match calibrateLoop hw dev start calibrationTimeMs fuel 0 (Flt.num 0) (Flt.num 0)
      (Flt.num 0) (millis w).2 with
  | none => none
  | some (samples, calSumX, calSumY, calSumZ, w1) =>
    if samples = 0 then
      some (false, dev, w1.onBus (hw.serialPrintln "Not enough samples to calibrate IMU!"))
    else
      some (true,
        { dev with
          gyroXDrift := calSumX.divInt samples
          gyroYDrift := calSumY.divInt samples
          gyroZDrift := calSumZ.divInt samples }, w1)

/-! ## Configuration sequencer -/

/-- Embedding of `LSM6DS3Class::end()`. -/
def end_ {σ : Type} (hw : Hardware σ) (dev : LSM6DS3Class) (w : World σ) : World σ :=
  if dev.spi then
    ((w.onBus hw.spiEnd).onBus (hw.digitalWrite dev.csPin false)).onBus
      (hw.pinMode dev.csPin false)
  else
    let w1 := (writeRegister hw dev LSM6DS3_CTRL2_G 0x00 w).2
    let w2 := (writeRegister hw dev LSM6DS3_CTRL1_XL 0x00 w1).2
    w2.onBus hw.wireEnd

/-- The transport start-up at the top of `begin`. -/
def beginTransport {σ : Type} (hw : Hardware σ) (dev : LSM6DS3Class) (w : World σ) : World σ :=
  if dev.spi then
    ((w.onBus (hw.pinMode dev.csPin true)).onBus (hw.digitalWrite dev.csPin true)).onBus
      hw.spiBegin
  else w.onBus hw.wireBegin

/-- The FIFO set-up at the bottom of `begin`, run when `_fifoEnabled` is set.
`byte currentCTRL3 = readRegister(...)` keeps the low 8 bits of the `int`. -/
def configureFifo {σ : Type} (hw : Hardware σ) (dev : LSM6DS3Class) (w : World σ) : World σ :=
  let c := readRegister hw dev LSM6DS3_CTRL3_C w
  let currentCTRL3 := (c.1 % 256).toNat
  let w1 := (writeRegister hw dev LSM6DS3_CTRL3_C (currentCTRL3 ||| 0x40) c.2).2
  let w2 := (writeRegister hw dev LSM6DS3_FIFO_CTRL3 0x11 w1).2
  (writeRegister hw dev LSM6DS3_FIFO_CTRL5 0x26 w2).2

/-- Embedding of `LSM6DS3Class::begin(useFIFO)`: return value, handle, world.
The fuel is that of the `calibrate(250)` call. -/
def begin {σ : Type} (hw : Hardware σ) (fuel : Nat) (useFIFO : Bool)
    (dev : LSM6DS3Class) (w : World σ) : Option (Int × LSM6DS3Class × World σ) :=
  let w0 := beginTransport hw dev w
  let who := readRegister hw dev LSM6DS3_WHO_AM_I_REG w0
  if who.1 ≠ 0x69 then some (0, dev, end_ hw dev who.2)
  else
    let w1 := (writeRegister hw dev LSM6DS3_CTRL2_G 0x4C who.2).2
    let w2 := (writeRegister hw dev LSM6DS3_CTRL1_XL 0x4A w1).2
    let w3 := (writeRegister hw dev LSM6DS3_CTRL8_XL 0x05 w2).2
    match calibrate hw fuel 250 dev w3 with
    | none => none
    | some (_, dev1, w4) =>
      let dev2 := { dev1 with fifoEnabled := useFIFO }
      if dev2.fifoEnabled then some (1, dev2, configureFifo hw dev2 w4)
      else some (1, dev2, w4)

/-! ## A register-file test double -/

/-- State of the simulated sensor and of the bus libraries in front of it. -/
structure Sim where
  regs : Nat → Nat
  junk : Nat → Nat
  ack : Bool
  deliver : Nat
  txBuf : List Nat
  pointer : Nat
  rxBuf : List Nat
  frame : Option (Bool × Nat)

/-- Modelled from the spec: the transport test double of the testable properties
(a register file that stores the last value written per register address and
echoes it on reads), speaking the bus framing of the external-interfaces
section.  Two-wire: a transmission is the register address followed by an
optional value; a request delivers the registers from the addressed one on, at
most `deliver` of them; a device with `ack` cleared acknowledges nothing.
Serial: chip-select starts a frame, the first byte of a frame is the register
address whose high bit selects read (1) or write (0), the following bytes are
data. -/
def simHw : Hardware Sim where
  intBits := 32
  stack := fun s i => s.junk i
  pinMode := fun _ _ s => s
  digitalWrite := fun _ _ s => { s with frame := none }
  spiBegin := fun s => s
  spiEnd := fun s => s
  spiBeginTransaction := fun s => s
  spiEndTransaction := fun s => s
  spiTransfer := fun b s =>
    match s.frame with
    | none => (0, { s with frame := some (decide (128 ≤ b), b % 128) })
    | some (true, a) => (s.regs a, { s with frame := some (true, a + 1) })
    | some (false, a) =>
      (0, { s with regs := fun r => if r = a then b else s.regs r, frame := some (false, a + 1) })
  wireBegin := fun s => s
  wireEnd := fun s => s
  wireBeginTransmission := fun _ s => { s with txBuf := [] }
  wireWrite := fun b s => { s with txBuf := s.txBuf ++ [b] }
  wireEndTransmission := fun _ s =>
    if s.ack then
      match s.txBuf with
      | [] => (0, s)
      | [a] => (0, { s with pointer := a })
      | a :: v :: _ =>
        (0, { s with pointer := a, regs := fun r => if r = a then v else s.regs r })
    else (2, s)
  wireRequestFrom := fun _ n s =>
    (min n s.deliver,
      { s with rxBuf := (List.range (min n s.deliver)).map (fun i => s.regs (s.pointer + i)) })
  wireRead := fun s =>
    match s.rxBuf with
    | [] => (-1, s)
    | b :: t => ((b : Int), { s with rxBuf := t })
  serialPrintln := fun _ s => s

/-- A simulated sensor with the given register file, idle bus libraries and
zeroed stack. -/
def simInit (regs : Nat → Nat) (ack : Bool) (deliver : Nat) : Sim :=
  { regs := regs, junk := fun _ => 0, ack := ack, deliver := deliver, txBuf := [],
    pointer := 0, rxBuf := [], frame := none }

/-- A world around a bus state: the clock script `clock`, no call made yet. -/
def worldOf {σ : Type} (s : σ) (clock : Nat → Nat) : World σ :=
  { bus := s, clock := clock, ticks := 0, log := [] }

/-- A handle as built by the two-wire constructor, drift members as given. -/
def wireDev (ox oy oz : Flt) : LSM6DS3Class :=
  { spi := false, slaveAddress := LSM6DS3_ADDRESS, csPin := 0, irqPin := 0,
    fifoEnabled := false, gyroXDrift := ox, gyroYDrift := oy, gyroZDrift := oz }

/-- A handle as built by the serial constructor, drift members as given. -/
def spiDev (ox oy oz : Flt) : LSM6DS3Class :=
  { spi := true, slaveAddress := 0, csPin := 10, irqPin := 2,
    fifoEnabled := false, gyroXDrift := ox, gyroYDrift := oy, gyroZDrift := oz }

/-! ## Observers and fixtures used in the statements -/

/-- Two-wire address phase of a register read, in the primitives of the bus
library: begin a transmission to the device, queue the register address, end
the transmission without releasing the bus.  The status code and the state. -/
def wireAddressPhase {σ : Type} (hw : Hardware σ) (dev : LSM6DS3Class)
    (address : Nat) (s : σ) : Nat × σ :=
  hw.wireEndTransmission false
    (hw.wireWrite address (hw.wireBeginTransmission dev.slaveAddress s))

/-- Two-wire data phase of a register read: the request for `length` bytes
after the address phase.  The number of bytes delivered and the state. -/
def wireDataPhase {σ : Type} (hw : Hardware σ) (dev : LSM6DS3Class)
    (address length : Nat) (s : σ) : Nat × σ :=
  hw.wireRequestFrom dev.slaveAddress length (wireAddressPhase hw dev address s).2

/-- The byte stored from call `i` (counted from 0) of `read()` made from state `s`. -/
def nthWireByte {σ : Type} (hw : Hardware σ) (i : Nat) (s : σ) : Nat :=
  ((hw.wireRead ((fun t => (hw.wireRead t).2)^[i] s)).1 % 256).toNat

/-- The register file of a sensor at rest reporting data ready: identity 0x69,
status 0x03, control register 3 at 0x04, gyroscope X at raw 16384 (bytes 0x00,
0x40), acceleration Z at raw -8192 (bytes 0x00, 0xE0), all else zero. -/
def restRegs : Nat → Nat := fun r =>
  if r = 0x0F then 0x69 else if r = 0x1E then 0x03 else if r = 0x12 then 0x04
  else if r = 0x23 then 0x40 else if r = 0x2D then 0xE0 else 0

/-- A two-wire sensor that acknowledges nothing, in front of a stack holding
the bytes 1, 2, 3, ... -/
def deafWorld : World Sim :=
  worldOf { simInit restRegs false 32 with junk := fun i => i + 1 } (fun n => n)

/-- The world of a sensor at rest (register file `restRegs`) whose clock
advances 100 ms per `millis()` call. -/
def restWorld : World Sim :=
  worldOf (simInit restRegs true 32) (fun n => 100 * n)

/-- The worlds in which the loop of `calibrate` calls `gyroscopeAvailable`, in
order, for a loop entered in world `w` and followed for at most `fuel`
evaluations of its test (ghost observer of `calibrateLoop`). -/
def windowPolls {σ : Type} (hw : Hardware σ) (dev : LSM6DS3Class)
    (start calibrationTimeMs : Int) : Nat → World σ → List (World σ)
  | 0, _ => []
  | fuel + 1, w =>
    if windowOpen (millis w).1 start calibrationTimeMs then
      (millis w).2 ::
        windowPolls hw dev start calibrationTimeMs fuel
          (if (gyroscopeAvailable hw dev (millis w).2).1 ≠ 0 then
            (readGyroscope hw dev (gyroscopeAvailable hw dev (millis w).2).2).2.2.2.2
          else (gyroscopeAvailable hw dev (millis w).2).2)
    else []

/-- The polls of a call `calibrate(calibrationTimeMs)` made in world `w`. -/
def calibrationPolls {σ : Type} (hw : Hardware σ) (dev : LSM6DS3Class)
    (calibrationTimeMs : Int) (fuel : Nat) (w : World σ) : List (World σ) :=
  windowPolls hw dev (toSigned hw.intBits (millis w).1) calibrationTimeMs fuel (millis w).2

/-- Evaluation `k` (from 0) of the loop test of a call
`calibrate(calibrationTimeMs)` made in world `w` finds the window closed: the
clock script has left `[.., start + calibrationTimeMs)` by then. -/
def windowClosedAt {σ : Type} (hw : Hardware σ) (calibrationTimeMs : Int)
    (w : World σ) (k : Nat) : Bool :=
  !windowOpen (w.clock (w.ticks + 1 + k) % 2 ^ 32)
    (toSigned hw.intBits (w.clock w.ticks % 2 ^ 32)) calibrationTimeMs

/-- The 6-byte read of the gyroscope output registers made in world `v`
succeeds and delivers the raw triplet `(a, b, c)`. -/
def gyroReadsRaw {σ : Type} (hw : Hardware σ) (dev : LSM6DS3Class) (v : World σ)
    (a b c : Int) : Bool :=
  decide ((readRegisters hw dev LSM6DS3_OUTX_L_G (stackBuf hw v.bus 6) 6 v).1 = 1) &&
  decide (int16At (readRegisters hw dev LSM6DS3_OUTX_L_G (stackBuf hw v.bus 6) 6 v).2.1 0 = a) &&
  decide (int16At (readRegisters hw dev LSM6DS3_OUTX_L_G (stackBuf hw v.bus 6) 6 v).2.1 1 = b) &&
  decide (int16At (readRegisters hw dev LSM6DS3_OUTX_L_G (stackBuf hw v.bus 6) 6 v).2.1 2 = c)

/-- The number of polls that reported data: the samples the loop collects. -/
def samplesIn {σ : Type} (hw : Hardware σ) (dev : LSM6DS3Class) (polls : List (World σ)) : Nat :=
  polls.countP (fun v => decide ((gyroscopeAvailable hw dev v).1 ≠ 0))

/-- The world of a sensor that never has data (all registers zero) whose clock
advances 100 ms per `millis()` call. -/
def idleWorld : World Sim :=
  worldOf (simInit (fun _ => 0) true 32) (fun n => 100 * n)

/-- The conversion `int → byte` of `byte currentCTRL3 = readRegister(...)`. -/
def byteOf (c : Int) : Nat := (c % 256).toNat

/-- The byte a one-byte register read takes from the transport, in the
primitives of the bus libraries.  Serial: the byte clocked in by the second
transfer of the frame (the first clocks the address out with the read flag).
Two-wire: the byte returned by the first `read()` after the data phase. -/
def deliveredByte {σ : Type} (hw : Hardware σ) (dev : LSM6DS3Class)
    (address : Nat) (s : σ) : Nat :=
  if dev.spi then
    (hw.spiTransfer (hw.stack s 0 % 256)
      (hw.spiTransfer (0x80 ||| address)
        (hw.digitalWrite dev.csPin false (hw.spiBeginTransaction s))).2).1 % 256
  else nthWireByte hw 0 (wireDataPhase hw dev address 1 s).2

/-- The float sum after adding the reading `q` to the accumulator `k` times:
`calSum += q` repeated. -/
def accumulate (q : ℚ) : Nat → Flt → Flt
  | 0, s => s
  | k + 1, s => accumulate q k (s.add (Flt.num q))

/-- The register file of a sensor turning at full scale: identity 0x69, status
0x03, gyroscope X at raw 32767 (bytes 0xFF, 0x7F), all else zero. -/
def spinRegs : Nat → Nat := fun r =>
  if r = 0x0F then 0x69 else if r = 0x1E then 0x03
  else if r = 0x22 then 0xFF else if r = 0x23 then 0x7F else 0

/-- The world of that sensor with a clock advancing 45 ms per `millis()` call:
a 250 ms window then holds five polls. -/
def spinWorld : World Sim :=
  worldOf (simInit spinRegs true 32) (fun n => 45 * n)

/-- One call of a bus library or pin primitive, with its arguments. -/
inductive BusEvent where
  | pinMode : Int → Bool → BusEvent
  | digitalWrite : Int → Bool → BusEvent
  | spiBegin : BusEvent
  | spiEnd : BusEvent
  | spiBeginTransaction : BusEvent
  | spiEndTransaction : BusEvent
  | spiTransfer : Nat → BusEvent
  | wireBegin : BusEvent
  | wireEnd : BusEvent
  | wireBeginTransmission : Nat → BusEvent
  | wireWrite : Nat → BusEvent
  | wireEndTransmission : Bool → BusEvent
  | wireRequestFrom : Nat → Nat → BusEvent
  | wireRead : BusEvent
  | serialPrintln : String → BusEvent
  deriving DecidableEq

/-- The transport-logging test double: it behaves as the hardware `hw` it wraps
and appends every primitive call to a list kept beside the machine state. -/
def logging {σ : Type} (hw : Hardware σ) : Hardware (σ × List BusEvent) where
  intBits := hw.intBits
  stack := fun s i => hw.stack s.1 i
  pinMode := fun p m s => (hw.pinMode p m s.1, s.2 ++ [BusEvent.pinMode p m])
  digitalWrite := fun p v s => (hw.digitalWrite p v s.1, s.2 ++ [BusEvent.digitalWrite p v])
  spiBegin := fun s => (hw.spiBegin s.1, s.2 ++ [BusEvent.spiBegin])
  spiEnd := fun s => (hw.spiEnd s.1, s.2 ++ [BusEvent.spiEnd])
  spiBeginTransaction := fun s =>
    (hw.spiBeginTransaction s.1, s.2 ++ [BusEvent.spiBeginTransaction])
  spiEndTransaction := fun s => (hw.spiEndTransaction s.1, s.2 ++ [BusEvent.spiEndTransaction])
  spiTransfer := fun b s =>
    ((hw.spiTransfer b s.1).1, ((hw.spiTransfer b s.1).2, s.2 ++ [BusEvent.spiTransfer b]))
  wireBegin := fun s => (hw.wireBegin s.1, s.2 ++ [BusEvent.wireBegin])
  wireEnd := fun s => (hw.wireEnd s.1, s.2 ++ [BusEvent.wireEnd])
  wireBeginTransmission := fun a s =>
    (hw.wireBeginTransmission a s.1, s.2 ++ [BusEvent.wireBeginTransmission a])
  wireWrite := fun b s => (hw.wireWrite b s.1, s.2 ++ [BusEvent.wireWrite b])
  wireEndTransmission := fun stop s =>
    ((hw.wireEndTransmission stop s.1).1,
      ((hw.wireEndTransmission stop s.1).2, s.2 ++ [BusEvent.wireEndTransmission stop]))
  wireRequestFrom := fun a n s =>
    ((hw.wireRequestFrom a n s.1).1,
      ((hw.wireRequestFrom a n s.1).2, s.2 ++ [BusEvent.wireRequestFrom a n]))
  wireRead := fun s => ((hw.wireRead s.1).1, ((hw.wireRead s.1).2, s.2 ++ [BusEvent.wireRead]))
  serialPrintln := fun t s => (hw.serialPrintln t s.1, s.2 ++ [BusEvent.serialPrintln t])

/-- The register write carried by a completed two-wire transmission with a
stop condition: register address byte, then value byte. -/
def wireFrameWrite : List Nat → List (Nat × Nat)
  | [a, v] => [(a, v)]
  | _ => []

/-- The register write carried by a completed serial frame: address byte with
the high bit clear, then value byte. -/
def spiFrameWrite : List Nat → List (Nat × Nat)
  | [a, v] => if a < 0x80 then [(a, v)] else []
  | _ => []

/-- The register writes a bus trace carries, in order, decoded by the framing of
the two buses.  Two-wire: the bytes queued between `beginTransmission` and an
`endTransmission` with stop.  Serial: the bytes transferred between
chip-select low and chip-select high.  The first two arguments are the bytes
of the two-wire transmission and of the serial frame under way. -/
def busWritesFrom : List Nat → List Nat → List BusEvent → List (Nat × Nat)
  | _, _, [] => []
  | _, sb, BusEvent.wireBeginTransmission _ :: t => busWritesFrom [] sb t
  | wb, sb, BusEvent.wireWrite b :: t => busWritesFrom (wb ++ [b]) sb t
  | wb, sb, BusEvent.wireEndTransmission true :: t => wireFrameWrite wb ++ busWritesFrom [] sb t
  | _, sb, BusEvent.wireEndTransmission false :: t => busWritesFrom [] sb t
  | wb, _, BusEvent.digitalWrite _ false :: t => busWritesFrom wb [] t
  | wb, sb, BusEvent.spiTransfer b :: t => busWritesFrom wb (sb ++ [b]) t
  | wb, sb, BusEvent.digitalWrite _ true :: t => spiFrameWrite sb ++ busWritesFrom wb [] t
  | wb, sb, BusEvent.pinMode _ _ :: t => busWritesFrom wb sb t
  | wb, sb, BusEvent.spiBegin :: t => busWritesFrom wb sb t
  | wb, sb, BusEvent.spiEnd :: t => busWritesFrom wb sb t
  | wb, sb, BusEvent.spiBeginTransaction :: t => busWritesFrom wb sb t
  | wb, sb, BusEvent.spiEndTransaction :: t => busWritesFrom wb sb t
  | wb, sb, BusEvent.wireBegin :: t => busWritesFrom wb sb t
  | wb, sb, BusEvent.wireEnd :: t => busWritesFrom wb sb t
  | wb, sb, BusEvent.wireRequestFrom _ _ :: t => busWritesFrom wb sb t
  | wb, sb, BusEvent.wireRead :: t => busWritesFrom wb sb t
  | wb, sb, BusEvent.serialPrintln _ :: t => busWritesFrom wb sb t

/-- The register writes of a bus trace that starts with both buses idle. -/
def busWrites (tr : List BusEvent) : List (Nat × Nat) := busWritesFrom [] [] tr

/-- The bus trace `evs` carries the register writes `out`, whatever was under
way before it and whatever follows it. -/
def Emits (evs : List BusEvent) (out : List (Nat × Nat)) : Prop :=
  ∀ wb sb rest, ∃ wb' sb', busWritesFrom wb sb (evs ++ rest) = out ++ busWritesFrom wb' sb' rest

/-- World `w1` extends the bus trace of world `w` by events carrying the
register writes `out`. -/
def Traced {σ : Type} (w w1 : World (σ × List BusEvent)) (out : List (Nat × Nat)) : Prop :=
  ∃ evs, w1.bus.2 = w.bus.2 ++ evs ∧ Emits evs out

/-- The world of the sensor at rest behind the logging double, empty bus trace,
clock advancing 100 ms per `millis()` call. -/
def loggedRestWorld : World (Sim × List BusEvent) :=
  worldOf (simInit restRegs true 32, []) (fun n => 100 * n)

/-! ## Frame lemmas: what each operation leaves alone -/

theorem writesOf_append (a b : List Access) : writesOf (a ++ b) = writesOf a ++ writesOf b := by
  induction a with
  | nil => rfl
  | cons x t ih => cases x <;> simp [writesOf, ih]

theorem readRegisters_world {σ : Type} (hw : Hardware σ) (dev : LSM6DS3Class)
    (address : Nat) (data : List Nat) (length : Nat) (w : World σ) :
    (readRegisters hw dev address data length w).2.2.log = w.log ++ [Access.read address length] ∧
    (readRegisters hw dev address data length w).2.2.clock = w.clock ∧
    (readRegisters hw dev address data length w).2.2.ticks = w.ticks :=
  ⟨rfl, rfl, rfl⟩

theorem readRegister_world {σ : Type} (hw : Hardware σ) (dev : LSM6DS3Class)
    (address : Nat) (w : World σ) :
    (readRegister hw dev address w).2.log = w.log ++ [Access.read address 1] ∧
    (readRegister hw dev address w).2.clock = w.clock ∧
    (readRegister hw dev address w).2.ticks = w.ticks := by
  unfold readRegister
  dsimp only
  split <;> exact readRegisters_world hw dev address _ 1 w

theorem writeRegister_world {σ : Type} (hw : Hardware σ) (dev : LSM6DS3Class)
    (address value : Nat) (w : World σ) :
    (writeRegister hw dev address value w).2.log = w.log ++ [Access.write address value] ∧
    (writeRegister hw dev address value w).2.clock = w.clock ∧
    (writeRegister hw dev address value w).2.ticks = w.ticks :=
  ⟨rfl, rfl, rfl⟩

theorem gyroscopeAvailable_world {σ : Type} (hw : Hardware σ) (dev : LSM6DS3Class)
    (w : World σ) :
    (gyroscopeAvailable hw dev w).2.log = w.log ++ [Access.read LSM6DS3_STATUS_REG 1] ∧
    (gyroscopeAvailable hw dev w).2.clock = w.clock ∧
    (gyroscopeAvailable hw dev w).2.ticks = w.ticks := by
  unfold gyroscopeAvailable
  dsimp only
  split <;> exact readRegister_world hw dev _ w

theorem readGyroscope_world {σ : Type} (hw : Hardware σ) (dev : LSM6DS3Class)
    (w : World σ) :
    (readGyroscope hw dev w).2.2.2.2.log = w.log ++ [Access.read LSM6DS3_OUTX_L_G 6] ∧
    (readGyroscope hw dev w).2.2.2.2.clock = w.clock ∧
    (readGyroscope hw dev w).2.2.2.2.ticks = w.ticks := by
  unfold readGyroscope
  dsimp only
  split <;> exact readRegisters_world hw dev _ _ 6 w

/-- The calibration loop issues register reads only and leaves the clock script
alone. -/
theorem calibrateLoop_world {σ : Type} (hw : Hardware σ) (dev : LSM6DS3Class)
    (start T : Int) (fuel : Nat) :
    ∀ (n : Nat) (sx sy sz : Flt) (w : World σ) (r : Nat × Flt × Flt × Flt × World σ),
      calibrateLoop hw dev start T fuel n sx sy sz w = some r →
      (∃ tr, r.2.2.2.2.log = w.log ++ tr ∧ writesOf tr = []) ∧ r.2.2.2.2.clock = w.clock := by
  induction fuel with
  | zero => intro n sx sy sz w r h; simp [calibrateLoop] at h
  | succ fuel ih =>
    intro n sx sy sz w r h
    rw [calibrateLoop] at h
    split at h
    · split at h
      · obtain ⟨⟨tr, htr, hw0⟩, hc⟩ := ih _ _ _ _ _ _ h
        have hg := readGyroscope_world hw dev (gyroscopeAvailable hw dev (millis w).2).2
        have ha := gyroscopeAvailable_world hw dev (millis w).2
        refine ⟨⟨Access.read LSM6DS3_STATUS_REG 1 :: Access.read LSM6DS3_OUTX_L_G 6 :: tr, ?_, ?_⟩, ?_⟩
        · rw [htr, hg.1, ha.1]; simp [millis]
        · simpa [writesOf] using hw0
        · rw [hc, hg.2.1, ha.2.1]; rfl
      · obtain ⟨⟨tr, htr, hw0⟩, hc⟩ := ih _ _ _ _ _ _ h
        have ha := gyroscopeAvailable_world hw dev (millis w).2
        refine ⟨⟨Access.read LSM6DS3_STATUS_REG 1 :: tr, ?_, ?_⟩, ?_⟩
        · rw [htr, ha.1]; simp [millis]
        · simpa [writesOf] using hw0
        · rw [hc, ha.2.1]; rfl
    · cases h
      exact ⟨⟨[], by simp [millis], rfl⟩, rfl⟩

/-- The calibration loop ends as soon as the clock script shows a reading
outside the window: `k + 1` units of fuel suffice when call `k` from now does. -/
theorem calibrateLoop_terminates {σ : Type} (hw : Hardware σ) (dev : LSM6DS3Class)
    (start T : Int) (k : Nat) :
    ∀ (n : Nat) (sx sy sz : Flt) (w : World σ),
      windowOpen (w.clock (w.ticks + k) % 2 ^ 32) start T = false →
      ∃ r, calibrateLoop hw dev start T (k + 1) n sx sy sz w = some r := by
  induction k with
  | zero =>
    intro n sx sy sz w h
    have h0 : windowOpen (millis w).1 start T = false := by simpa [millis] using h
    refine ⟨(n, sx, sy, sz, (millis w).2), ?_⟩
    rw [calibrateLoop]
    simp [h0]
  | succ k ih =>
    intro n sx sy sz w h
    rw [calibrateLoop]
    split
    · have ha := gyroscopeAvailable_world hw dev (millis w).2
      split
      · have hg := readGyroscope_world hw dev (gyroscopeAvailable hw dev (millis w).2).2
        apply ih
        rw [hg.2.1, hg.2.2, ha.2.1, ha.2.2]
        simpa [millis, Nat.add_assoc, Nat.add_comm 1 k] using h
      · apply ih
        rw [ha.2.1, ha.2.2]
        simpa [millis, Nat.add_assoc, Nat.add_comm 1 k] using h
    · exact ⟨_, rfl⟩

/-! ## Bit tests on the status byte -/

theorem land_one_cast (s : Nat) : Int.land (s : Int) 0x01 = ((s % 2 : Nat) : Int) := by
  show ((s &&& 1 : Nat) : Int) = _
  rw [Nat.and_one_is_mod]

theorem and_two_eq (s : Nat) : s &&& 2 = if s.testBit 1 then 2 else 0 := by
  apply Nat.eq_of_testBit_eq
  intro i
  rw [Nat.testBit_and]
  by_cases hi : 1 = i
  · subst hi
    have h2 : Nat.testBit 2 1 = true := by decide
    cases hb : s.testBit 1 <;> simp [h2]
  · have h2i : Nat.testBit 2 i = false := Nat.testBit_two_pow_of_ne hi
    cases hb : s.testBit 1 <;> simp [h2i]

theorem land_two_cast (s : Nat) :
    Int.land (s : Int) 0x02 = if s.testBit 1 then 2 else 0 := by
  show ((s &&& 2 : Nat) : Int) = _
  rw [and_two_eq]
  split <;> rfl

theorem ldiff_zero_right (n : Nat) : Nat.ldiff n 0 = n := by
  apply Nat.eq_of_testBit_eq
  intro i
  rw [Nat.testBit_ldiff]
  simp

theorem land_neg_one : Int.land (-1) 0x01 = 1 ∧ Int.land (-1) 0x02 = 2 := by
  constructor
  · show ((Nat.ldiff 1 0 : Nat) : Int) = 1
    rw [ldiff_zero_right]; rfl
  · show ((Nat.ldiff 2 0 : Nat) : Int) = 2
    rw [ldiff_zero_right]; rfl

/-! ## Register access layer: result codes -/

theorem wireReadN_length {σ : Type} (hw : Hardware σ) (n : Nat) :
    ∀ s : σ, (wireReadN hw n s).1.length = n := by
  induction n with
  | zero => intro s; rfl
  | succ n ih => intro s; simp [wireReadN, ih]

theorem wireReadN_getD {σ : Type} (hw : Hardware σ) (n : Nat) :
    ∀ (s : σ) (i : Nat), i < n → (wireReadN hw n s).1.getD i 0 = nthWireByte hw i s := by
  induction n with
  | zero => intro s i hi; omega
  | succ n ih =>
    intro s i hi
    cases i with
    | zero => simp [wireReadN, nthWireByte]
    | succ i =>
      have := ih (hw.wireRead s).2 i (by omega)
      simpa [wireReadN, nthWireByte] using this

theorem wireReadN_lt {σ : Type} (hw : Hardware σ) (n : Nat) :
    ∀ (s : σ), ∀ b ∈ (wireReadN hw n s).1, b < 256 := by
  induction n with
  | zero => intro s b hb; simp [wireReadN] at hb
  | succ n ih =>
    intro s b hb
    simp only [wireReadN, List.mem_cons] at hb
    rcases hb with hb | hb
    · subst hb; omega
    · exact ih _ b hb

theorem spiTransferBuf_length {σ : Type} (hw : Hardware σ) (l : List Nat) :
    ∀ s : σ, (spiTransferBuf hw l s).1.length = l.length := by
  induction l with
  | nil => intro s; rfl
  | cons b bs ih => intro s; simp [spiTransferBuf, ih]

theorem spiTransferBuf_lt {σ : Type} (hw : Hardware σ) (l : List Nat) :
    ∀ (s : σ), ∀ b ∈ (spiTransferBuf hw l s).1, b < 256 := by
  induction l with
  | nil => intro s b hb; simp [spiTransferBuf] at hb
  | cons x xs ih =>
    intro s b hb
    simp only [spiTransferBuf, List.mem_cons] at hb
    rcases hb with hb | hb
    · subst hb; omega
    · exact ih _ b hb

theorem take_append_exact {α : Type} (a b : List α) (n : Nat) (h : a.length = n) :
    (a ++ b).take n = a := by
  subst h; simp

/-- Serial transport: `readRegisters` reports 1 and stores the bytes clocked in. -/
theorem readRegisters_spi {σ : Type} (hw : Hardware σ) (dev : LSM6DS3Class)
    (address : Nat) (data : List Nat) (length : Nat) (w : World σ) (hspi : dev.spi = true) :
    (readRegisters hw dev address data length w).1 = 1 ∧
    (readRegisters hw dev address data length w).2.1 =
      (spiTransferBuf hw (data.take length)
        (hw.spiTransfer (0x80 ||| address) (hw.digitalWrite dev.csPin false
          (hw.spiBeginTransaction w.bus))).2).1 ++ data.drop length := by
  simp [readRegisters, readRegistersBus, hspi, World.record]

/-- Two-wire transport, address phase not acknowledged. -/
theorem readRegisters_wire_nack {σ : Type} (hw : Hardware σ) (dev : LSM6DS3Class)
    (address : Nat) (data : List Nat) (length : Nat) (w : World σ) (hspi : dev.spi = false)
    (he : (wireAddressPhase hw dev address w.bus).1 ≠ 0) :
    (readRegisters hw dev address data length w).1 = -1 ∧
    (readRegisters hw dev address data length w).2.1 = data := by
  simp only [wireAddressPhase] at he
  simp [readRegisters, readRegistersBus, hspi, World.record, he]

/-- Two-wire transport, address phase acknowledged, wrong number of bytes. -/
theorem readRegisters_wire_short {σ : Type} (hw : Hardware σ) (dev : LSM6DS3Class)
    (address : Nat) (data : List Nat) (length : Nat) (w : World σ) (hspi : dev.spi = false)
    (he : (wireAddressPhase hw dev address w.bus).1 = 0)
    (hq : (wireDataPhase hw dev address length w.bus).1 ≠ length) :
    (readRegisters hw dev address data length w).1 = 0 ∧
    (readRegisters hw dev address data length w).2.1 = data := by
  simp only [wireDataPhase, wireAddressPhase] at he hq
  simp [readRegisters, readRegistersBus, hspi, World.record, he, hq]

/-- Two-wire transport, both phases good. -/
theorem readRegisters_wire_ok {σ : Type} (hw : Hardware σ) (dev : LSM6DS3Class)
    (address : Nat) (data : List Nat) (length : Nat) (w : World σ) (hspi : dev.spi = false)
    (he : (wireAddressPhase hw dev address w.bus).1 = 0)
    (hq : (wireDataPhase hw dev address length w.bus).1 = length) :
    (readRegisters hw dev address data length w).1 = 1 ∧
    (readRegisters hw dev address data length w).2.1 =
      (wireReadN hw length (wireDataPhase hw dev address length w.bus).2).1 ++
        data.drop length := by
  simp only [wireDataPhase, wireAddressPhase] at he hq ⊢
  simp [readRegisters, readRegistersBus, hspi, World.record, he, hq]

/-- The result code of `readRegisters` is one of -1, 0, 1. -/
theorem readRegisters_code {σ : Type} (hw : Hardware σ) (dev : LSM6DS3Class)
    (address : Nat) (data : List Nat) (length : Nat) (w : World σ) :
    (readRegisters hw dev address data length w).1 = -1 ∨
    (readRegisters hw dev address data length w).1 = 0 ∨
    (readRegisters hw dev address data length w).1 = 1 := by
  cases hspi : dev.spi with
  | true => exact Or.inr (Or.inr (readRegisters_spi hw dev address data length w hspi).1)
  | false =>
    by_cases he : (wireAddressPhase hw dev address w.bus).1 = 0
    · by_cases hq : (wireDataPhase hw dev address length w.bus).1 = length
      · exact Or.inr (Or.inr (readRegisters_wire_ok hw dev address data length w hspi he hq).1)
      · exact Or.inr (Or.inl (readRegisters_wire_short hw dev address data length w hspi he hq).1)
    · exact Or.inl (readRegisters_wire_nack hw dev address data length w hspi he).1

/-- After a successful `readRegisters` the first `length` bytes of a buffer of
at least that size are bytes (below 256) and the buffer keeps its size. -/
theorem readRegisters_bytes {σ : Type} (hw : Hardware σ) (dev : LSM6DS3Class)
    (address : Nat) (data : List Nat) (length : Nat) (w : World σ)
    (hlen : length ≤ data.length)
    (hok : (readRegisters hw dev address data length w).1 = 1) :
    (readRegisters hw dev address data length w).2.1.length = data.length ∧
    ∀ b ∈ (readRegisters hw dev address data length w).2.1.take length, b < 256 := by
  cases hspi : dev.spi with
  | true =>
    have h := (readRegisters_spi hw dev address data length w hspi).2
    have hl := spiTransferBuf_length hw (data.take length)
      (hw.spiTransfer (0x80 ||| address) (hw.digitalWrite dev.csPin false
        (hw.spiBeginTransaction w.bus))).2
    rw [List.length_take, Nat.min_eq_left hlen] at hl
    rw [h]
    constructor
    · rw [List.length_append, hl, List.length_drop]; omega
    · intro b hb
      rw [take_append_exact _ _ _ hl] at hb
      exact spiTransferBuf_lt hw _ _ b hb
  | false =>
    by_cases he : (wireAddressPhase hw dev address w.bus).1 = 0
    · by_cases hq : (wireDataPhase hw dev address length w.bus).1 = length
      · have h := (readRegisters_wire_ok hw dev address data length w hspi he hq).2
        have hl := wireReadN_length hw length (wireDataPhase hw dev address length w.bus).2
        rw [h]
        constructor
        · rw [List.length_append, hl, List.length_drop]; omega
        · intro b hb
          rw [take_append_exact _ _ _ hl] at hb
          exact wireReadN_lt hw _ _ b hb
      · have h := (readRegisters_wire_short hw dev address data length w hspi he hq).1
        rw [h] at hok; simp at hok
    · have h := (readRegisters_wire_nack hw dev address data length w hspi he).1
      rw [h] at hok; simp at hok

/-! ## Claims on the register access layer and the status polls -/

/-- C8. `readRegisters` on the two-wire transport returns -1 when the address
phase is not acknowledged (non-zero status of `endTransmission(false)`), 0 when
it is acknowledged and `requestFrom` delivers a number of bytes different from
`length`, and 1 otherwise, in which case byte `i` of the buffer, for every
`i < length`, is the byte returned by the `i`-th `read()` call; the three codes
are pairwise distinct.  On the serial transport it returns 1 on every input. -/
theorem readRegisters_result_codes {σ : Type} (hw : Hardware σ) (dev : LSM6DS3Class)
    (address : Nat) (data : List Nat) (length : Nat) (w : World σ) :
    (dev.spi = true → (readRegisters hw dev address data length w).1 = 1) ∧
    (dev.spi = false → (wireAddressPhase hw dev address w.bus).1 ≠ 0 →
      (readRegisters hw dev address data length w).1 = -1) ∧
    (dev.spi = false → (wireAddressPhase hw dev address w.bus).1 = 0 →
      (wireDataPhase hw dev address length w.bus).1 ≠ length →
      (readRegisters hw dev address data length w).1 = 0) ∧
    (dev.spi = false → (wireAddressPhase hw dev address w.bus).1 = 0 →
      (wireDataPhase hw dev address length w.bus).1 = length →
      (readRegisters hw dev address data length w).1 = 1 ∧
      ∀ i, i < length →
        (readRegisters hw dev address data length w).2.1.getD i 0 =
          nthWireByte hw i (wireDataPhase hw dev address length w.bus).2) ∧
    ((-1 : Int) ≠ 0 ∧ (-1 : Int) ≠ 1 ∧ (0 : Int) ≠ 1) := by
  refine ⟨fun h => (readRegisters_spi hw dev address data length w h).1,
    fun h he => (readRegisters_wire_nack hw dev address data length w h he).1,
    fun h he hq => (readRegisters_wire_short hw dev address data length w h he hq).1,
    fun h he hq => ?_, by decide, by decide, by decide⟩
  have hr := readRegisters_wire_ok hw dev address data length w h he hq
  refine ⟨hr.1, fun i hi => ?_⟩
  rw [hr.2, List.getD_append _ _ _ _ (by rw [wireReadN_length]; exact hi)]
  exact wireReadN_getD hw length _ i hi

/-- C8, instances: the simulated sensor on the serial transport, then on the
two-wire transport not acknowledging, delivering 3 of 6 bytes, and delivering
all 6. -/
theorem readRegisters_result_codes_witness :
    (readRegisters simHw (spiDev Flt.nan Flt.nan Flt.nan) 0x22 [0, 0, 0, 0, 0, 0] 6
      (worldOf (simInit (fun r => r) true 32) (fun n => n))).1 = 1 ∧
    (readRegisters simHw (wireDev Flt.nan Flt.nan Flt.nan) 0x22 [0, 0, 0, 0, 0, 0] 6
      (worldOf (simInit (fun r => r) false 32) (fun n => n))).1 = -1 ∧
    (readRegisters simHw (wireDev Flt.nan Flt.nan Flt.nan) 0x22 [0, 0, 0, 0, 0, 0] 6
      (worldOf (simInit (fun r => r) true 3) (fun n => n))).1 = 0 ∧
    (readRegisters simHw (wireDev Flt.nan Flt.nan Flt.nan) 0x22 [0, 0, 0, 0, 0, 0] 6
      (worldOf (simInit (fun r => r) true 32) (fun n => n))).1 = 1 :=
  ⟨(readRegisters_result_codes simHw (spiDev Flt.nan Flt.nan Flt.nan) 0x22 [0, 0, 0, 0, 0, 0] 6
      (worldOf (simInit (fun r => r) true 32) (fun n => n))).1 rfl,
   (readRegisters_result_codes simHw (wireDev Flt.nan Flt.nan Flt.nan) 0x22 [0, 0, 0, 0, 0, 0] 6
      (worldOf (simInit (fun r => r) false 32) (fun n => n))).2.1 rfl (by decide),
   (readRegisters_result_codes simHw (wireDev Flt.nan Flt.nan Flt.nan) 0x22 [0, 0, 0, 0, 0, 0] 6
      (worldOf (simInit (fun r => r) true 3) (fun n => n))).2.2.1 rfl (by decide) (by decide),
   ((readRegisters_result_codes simHw (wireDev Flt.nan Flt.nan Flt.nan) 0x22 [0, 0, 0, 0, 0, 0] 6
      (worldOf (simInit (fun r => r) true 32) (fun n => n))).2.2.2.1 rfl (by decide)
      (by decide)).1⟩

/-- The value of `readRegister` is -1 exactly when the underlying one-byte
`readRegisters` does not report 1; otherwise it is a byte. -/
theorem readRegister_value {σ : Type} (hw : Hardware σ) (dev : LSM6DS3Class)
    (address : Nat) (w : World σ) :
    ((readRegisters hw dev address (stackBuf hw w.bus 1) 1 w).1 ≠ 1 →
      (readRegister hw dev address w).1 = -1) ∧
    ((readRegisters hw dev address (stackBuf hw w.bus 1) 1 w).1 = 1 →
      ∃ b : Nat, b < 256 ∧ (readRegister hw dev address w).1 = (b : Int) ∧
        (readRegisters hw dev address (stackBuf hw w.bus 1) 1 w).2.1 = [b]) := by
  constructor
  · intro h
    simp [readRegister, h]
  · intro h
    have hb := readRegisters_bytes hw dev address (stackBuf hw w.bus 1) 1 w (by simp [stackBuf]) h
    have hlen : (readRegisters hw dev address (stackBuf hw w.bus 1) 1 w).2.1.length = 1 := by
      rw [hb.1]; simp [stackBuf]
    match hd : (readRegisters hw dev address (stackBuf hw w.bus 1) 1 w).2.1, hlen with
    | [b], _ =>
      refine ⟨b, ?_, ?_, rfl⟩
      · apply hb.2; rw [hd]; simp
      · simp [readRegister, h, hd]

/-- A successful one-byte `readRegisters` leaves exactly the delivered byte in
the buffer. -/
theorem readRegisters_one_byte {σ : Type} (hw : Hardware σ) (dev : LSM6DS3Class)
    (address : Nat) (w : World σ)
    (hok : (readRegisters hw dev address (stackBuf hw w.bus 1) 1 w).1 = 1) :
    (readRegisters hw dev address (stackBuf hw w.bus 1) 1 w).2.1 =
      [deliveredByte hw dev address w.bus] := by
  have hr1 : List.range 1 = [0] := rfl
  cases hspi : dev.spi with
  | true =>
    rw [(readRegisters_spi hw dev address _ 1 w hspi).2]
    simp [deliveredByte, hspi, stackBuf, hr1, spiTransferBuf]
  | false =>
    by_cases he : (wireAddressPhase hw dev address w.bus).1 = 0
    · by_cases hq : (wireDataPhase hw dev address 1 w.bus).1 = 1
      · rw [(readRegisters_wire_ok hw dev address _ 1 w hspi he hq).2]
        simp [deliveredByte, hspi, stackBuf, hr1, wireReadN, nthWireByte]
      · have h := (readRegisters_wire_short hw dev address (stackBuf hw w.bus 1) 1 w hspi he
          hq).1
        rw [h] at hok; simp at hok
    · have h := (readRegisters_wire_nack hw dev address (stackBuf hw w.bus 1) 1 w hspi he).1
      rw [h] at hok; simp at hok

/-- C10. When the read of the status register (0x1E) fails, `readRegister`
yields the sentinel -1 and both `accelerationAvailable` and `gyroscopeAvailable`
return 1; when it succeeds, with `s` the status byte delivered by the transport
(the content of the read buffer), `readRegister` yields `s`,
`accelerationAvailable` returns 1 if bit 0 of `s` is set and 0 otherwise, and
`gyroscopeAvailable` returns 1 if bit 1 of `s` is set and 0 otherwise. -/
theorem available_follows_status {σ : Type} (hw : Hardware σ) (dev : LSM6DS3Class)
    (w : World σ) :
    ((readRegisters hw dev LSM6DS3_STATUS_REG (stackBuf hw w.bus 1) 1 w).1 ≠ 1 →
      (readRegister hw dev LSM6DS3_STATUS_REG w).1 = -1 ∧
      (accelerationAvailable hw dev w).1 = 1 ∧ (gyroscopeAvailable hw dev w).1 = 1) ∧
    ((readRegisters hw dev LSM6DS3_STATUS_REG (stackBuf hw w.bus 1) 1 w).1 = 1 →
      ∃ s : Nat, s < 256 ∧
        s = deliveredByte hw dev 0x1E w.bus ∧
        (readRegisters hw dev LSM6DS3_STATUS_REG (stackBuf hw w.bus 1) 1 w).2.1 = [s] ∧
        (readRegister hw dev LSM6DS3_STATUS_REG w).1 = (s : Int) ∧
        (accelerationAvailable hw dev w).1 = (if s.testBit 0 then 1 else 0) ∧
        (gyroscopeAvailable hw dev w).1 = (if s.testBit 1 then 1 else 0)) := by
  constructor
  · intro hf
    have h := (readRegister_value hw dev LSM6DS3_STATUS_REG w).1 hf
    simp [accelerationAvailable, gyroscopeAvailable, h, land_neg_one.1, land_neg_one.2]
  · intro hok
    obtain ⟨s, hs, h, hbuf⟩ := (readRegister_value hw dev LSM6DS3_STATUS_REG w).2 hok
    have hdel := readRegisters_one_byte hw dev LSM6DS3_STATUS_REG w hok
    have hsd : s = deliveredByte hw dev 0x1E w.bus := by
      rw [hbuf] at hdel
      simpa [LSM6DS3_STATUS_REG] using hdel
    refine ⟨s, hs, hsd, hbuf, h, ?_, ?_⟩
    · simp only [accelerationAvailable, h, land_one_cast, Nat.testBit_zero]
      rcases Nat.mod_two_eq_zero_or_one s with h2 | h2 <;> simp [h2]
    · simp only [gyroscopeAvailable, h, land_two_cast]
      cases s.testBit 1 <;> simp

/-- C10, instances: a two-wire sensor that acknowledges nothing (both polls
report 1), and a two-wire sensor whose status byte is 0x01
(acceleration only). -/
theorem available_follows_status_witness :
    ((readRegister simHw (wireDev Flt.nan Flt.nan Flt.nan) LSM6DS3_STATUS_REG
        (worldOf (simInit (fun _ => 0) false 32) (fun n => n))).1 = -1 ∧
      (accelerationAvailable simHw (wireDev Flt.nan Flt.nan Flt.nan)
        (worldOf (simInit (fun _ => 0) false 32) (fun n => n))).1 = 1 ∧
      (gyroscopeAvailable simHw (wireDev Flt.nan Flt.nan Flt.nan)
        (worldOf (simInit (fun _ => 0) false 32) (fun n => n))).1 = 1) ∧
    (∃ s : Nat, s < 256 ∧
      s = deliveredByte simHw (wireDev Flt.nan Flt.nan Flt.nan) 0x1E
        (worldOf (simInit (fun _ => 1) true 32) (fun n => n)).bus ∧
      (readRegisters simHw (wireDev Flt.nan Flt.nan Flt.nan) LSM6DS3_STATUS_REG
        (stackBuf simHw (worldOf (simInit (fun _ => 1) true 32) (fun n => n)).bus 1) 1
        (worldOf (simInit (fun _ => 1) true 32) (fun n => n))).2.1 = [s] ∧
      (readRegister simHw (wireDev Flt.nan Flt.nan Flt.nan) LSM6DS3_STATUS_REG
        (worldOf (simInit (fun _ => 1) true 32) (fun n => n))).1 = (s : Int) ∧
      (accelerationAvailable simHw (wireDev Flt.nan Flt.nan Flt.nan)
        (worldOf (simInit (fun _ => 1) true 32) (fun n => n))).1 =
          (if s.testBit 0 then 1 else 0) ∧
      (gyroscopeAvailable simHw (wireDev Flt.nan Flt.nan Flt.nan)
        (worldOf (simInit (fun _ => 1) true 32) (fun n => n))).1 =
          (if s.testBit 1 then 1 else 0)) ∧
    (deliveredByte simHw (wireDev Flt.nan Flt.nan Flt.nan) 0x1E
        (worldOf (simInit (fun _ => 1) true 32) (fun n => n)).bus = 1 ∧
      (accelerationAvailable simHw (wireDev Flt.nan Flt.nan Flt.nan)
        (worldOf (simInit (fun _ => 1) true 32) (fun n => n))).1 = 1 ∧
      (gyroscopeAvailable simHw (wireDev Flt.nan Flt.nan Flt.nan)
        (worldOf (simInit (fun _ => 1) true 32) (fun n => n))).1 = 0) :=
  ⟨(available_follows_status simHw (wireDev Flt.nan Flt.nan Flt.nan)
      (worldOf (simInit (fun _ => 0) false 32) (fun n => n))).1 (by decide),
   (available_follows_status simHw (wireDev Flt.nan Flt.nan Flt.nan)
      (worldOf (simInit (fun _ => 1) true 32) (fun n => n))).2 (by decide),
   by decide, by decide, by decide⟩

/-! ## Claims on the sample reader -/

/-- The sample reads never look at the drift members of the handle. -/
theorem readRegisters_drift_irrelevant {σ : Type} (hw : Hardware σ) (dev : LSM6DS3Class)
    (ox oy oz : Flt) (address : Nat) (data : List Nat) (length : Nat) (w : World σ) :
    readRegisters hw { dev with gyroXDrift := ox, gyroYDrift := oy, gyroZDrift := oz }
      address data length w = readRegisters hw dev address data length w :=
  rfl

/-- C6. When the 6-byte read of the accelerometer output registers (0x28)
succeeds with bytes `b0..b5`, `readAcceleration` returns 1 and outputs
`(rx*4/32768, ry*4/32768, rz*4/32768)` where `rx`, `ry`, `rz` are the signed
16-bit little-endian integers formed from `(b0,b1)`, `(b2,b3)`, `(b4,b5)`;
the outcome is the same whatever the stored gyroscope offsets are. -/
theorem readAcceleration_scales_raw {σ : Type} (hw : Hardware σ) (dev : LSM6DS3Class)
    (w : World σ) (b0 b1 b2 b3 b4 b5 : Nat) (ox oy oz : Flt)
    (hok : (readRegisters hw dev LSM6DS3_OUTX_L_XL (stackBuf hw w.bus 6) 6 w).1 = 1)
    (hdata : (readRegisters hw dev LSM6DS3_OUTX_L_XL (stackBuf hw w.bus 6) 6 w).2.1 =
      [b0, b1, b2, b3, b4, b5]) :
    readAcceleration hw { dev with gyroXDrift := ox, gyroYDrift := oy, gyroZDrift := oz } w =
      (1, Flt.num ((toInt16 (b0 + 256 * b1) : ℚ) * 4 / 32768),
        Flt.num ((toInt16 (b2 + 256 * b3) : ℚ) * 4 / 32768),
        Flt.num ((toInt16 (b4 + 256 * b5) : ℚ) * 4 / 32768),
        (readRegisters hw dev LSM6DS3_OUTX_L_XL (stackBuf hw w.bus 6) 6 w).2.2) := by
  simp only [readAcceleration, readRegisters_drift_irrelevant, hok, hdata, int16At]
  simp

/-- C6, instance: two-wire sensor with raw acceleration (0, 0, -8192), handle
holding offsets (1000, 0, 0): the outputs are (0, 0, -1). -/
theorem readAcceleration_scales_raw_witness :
    readAcceleration simHw (wireDev (Flt.num 1000) (Flt.num 0) (Flt.num 0))
        (worldOf (simInit restRegs true 32) (fun n => n)) =
      (1, Flt.num ((toInt16 (0 + 256 * 0) : ℚ) * 4 / 32768),
        Flt.num ((toInt16 (0 + 256 * 0) : ℚ) * 4 / 32768),
        Flt.num ((toInt16 (0 + 256 * 0xE0) : ℚ) * 4 / 32768),
        (readRegisters simHw (wireDev Flt.nan Flt.nan Flt.nan) LSM6DS3_OUTX_L_XL
          (stackBuf simHw (worldOf (simInit restRegs true 32) (fun n => n)).bus 6) 6
          (worldOf (simInit restRegs true 32) (fun n => n))).2.2) ∧
    (toInt16 (0 + 256 * 0xE0) : ℚ) * 4 / 32768 = -1 :=
  ⟨readAcceleration_scales_raw simHw (wireDev Flt.nan Flt.nan Flt.nan)
      (worldOf (simInit restRegs true 32) (fun n => n)) 0 0 0 0 0 0xE0
      (Flt.num 1000) (Flt.num 0) (Flt.num 0) (by decide) (by decide),
    by norm_num [toInt16]⟩

/-- What `readAcceleration` and `readGyroscope` do with each result code of the
register read: NaN outputs and 0 on code 0 only; on code -1 (address phase not
acknowledged) they return 1. -/
theorem sample_reads_by_code {σ : Type} (hw : Hardware σ) (dev : LSM6DS3Class) (w : World σ) :
    ((readRegisters hw dev LSM6DS3_OUTX_L_XL (stackBuf hw w.bus 6) 6 w).1 = 0 →
      (readAcceleration hw dev w).1 = 0 ∧ (readAcceleration hw dev w).2.1 = Flt.nan ∧
      (readAcceleration hw dev w).2.2.1 = Flt.nan ∧
      (readAcceleration hw dev w).2.2.2.1 = Flt.nan) ∧
    ((readRegisters hw dev LSM6DS3_OUTX_L_G (stackBuf hw w.bus 6) 6 w).1 = 0 →
      (readGyroscope hw dev w).1 = 0 ∧ (readGyroscope hw dev w).2.1 = Flt.nan ∧
      (readGyroscope hw dev w).2.2.1 = Flt.nan ∧
      (readGyroscope hw dev w).2.2.2.1 = Flt.nan) ∧
    ((readRegisters hw dev LSM6DS3_OUTX_L_XL (stackBuf hw w.bus 6) 6 w).1 = -1 →
      (readAcceleration hw dev w).1 = 1) ∧
    ((readRegisters hw dev LSM6DS3_OUTX_L_G (stackBuf hw w.bus 6) 6 w).1 = -1 →
      (readGyroscope hw dev w).1 = 1) := by
  refine ⟨fun h => ?_, fun h => ?_, fun h => ?_, fun h => ?_⟩ <;>
    simp [readAcceleration, readGyroscope, h]

/-- C2, failing input: on a two-wire bus whose address phase is not
acknowledged the register read fails with code -1, yet `readAcceleration` and
`readGyroscope` both return 1 and put out numbers computed from the
uninitialised buffer (here bytes 1, 2 give raw 513), not the NaN sentinel. -/
theorem sample_reads_miss_nack :
    (readRegisters simHw (wireDev (Flt.num 0) (Flt.num 0) (Flt.num 0)) LSM6DS3_OUTX_L_XL
      (stackBuf simHw deafWorld.bus 6) 6 deafWorld).1 = -1 ∧
    (readAcceleration simHw (wireDev (Flt.num 0) (Flt.num 0) (Flt.num 0)) deafWorld).1 = 1 ∧
    (readAcceleration simHw (wireDev (Flt.num 0) (Flt.num 0) (Flt.num 0)) deafWorld).2.1 =
      Flt.num ((513 : ℚ) * 4 / 32768) ∧
    (readRegisters simHw (wireDev (Flt.num 0) (Flt.num 0) (Flt.num 0)) LSM6DS3_OUTX_L_G
      (stackBuf simHw deafWorld.bus 6) 6 deafWorld).1 = -1 ∧
    (readGyroscope simHw (wireDev (Flt.num 0) (Flt.num 0) (Flt.num 0)) deafWorld).1 = 1 ∧
    (readGyroscope simHw (wireDev (Flt.num 0) (Flt.num 0) (Flt.num 0)) deafWorld).2.1 =
      Flt.num ((513 : ℚ) * 2000 / 32768) := by
  refine ⟨by decide, by decide, ?_, by decide, by decide, ?_⟩
  · have h : int16At (readRegisters simHw (wireDev (Flt.num 0) (Flt.num 0) (Flt.num 0))
        LSM6DS3_OUTX_L_XL (stackBuf simHw deafWorld.bus 6) 6 deafWorld).2.1 0 = 513 := by decide
    have hc : (readRegisters simHw (wireDev (Flt.num 0) (Flt.num 0) (Flt.num 0))
        LSM6DS3_OUTX_L_XL (stackBuf simHw deafWorld.bus 6) 6 deafWorld).1 = -1 := by decide
    simp [readAcceleration, h, hc]
  · have h : int16At (readRegisters simHw (wireDev (Flt.num 0) (Flt.num 0) (Flt.num 0))
        LSM6DS3_OUTX_L_G (stackBuf simHw deafWorld.bus 6) 6 deafWorld).2.1 0 = 513 := by decide
    have hc : (readRegisters simHw (wireDev (Flt.num 0) (Flt.num 0) (Flt.num 0))
        LSM6DS3_OUTX_L_G (stackBuf simHw deafWorld.bus 6) 6 deafWorld).1 = -1 := by decide
    simp [readGyroscope, h, hc]

/-- The outputs of `readGyroscope` do not depend on the stored offsets. -/
theorem readGyroscope_drift_irrelevant {σ : Type} (hw : Hardware σ) (dev : LSM6DS3Class)
    (ox oy oz : Flt) (w : World σ) :
    readGyroscope hw { dev with gyroXDrift := ox, gyroYDrift := oy, gyroZDrift := oz } w =
      readGyroscope hw dev w :=
  rfl

/-- C1, failing input: a handle whose stored offsets are (1000, 0, 0) and a
sensor whose gyroscope registers hold raw (16384, 0, 0).  `readGyroscope`
returns 1 and puts out x = 16384*2000/32768 = 1000, the uncorrected value; the
claim requires 16384*2000/32768 - 1000 = 0. -/
theorem readGyroscope_skips_offset :
    (readRegisters simHw (wireDev (Flt.num 1000) (Flt.num 0) (Flt.num 0)) LSM6DS3_OUTX_L_G
      (stackBuf simHw restWorld.bus 6) 6 restWorld).1 = 1 ∧
    int16At (readRegisters simHw (wireDev (Flt.num 1000) (Flt.num 0) (Flt.num 0))
      LSM6DS3_OUTX_L_G (stackBuf simHw restWorld.bus 6) 6 restWorld).2.1 0 = 16384 ∧
    (readGyroscope simHw (wireDev (Flt.num 1000) (Flt.num 0) (Flt.num 0)) restWorld).1 = 1 ∧
    (readGyroscope simHw (wireDev (Flt.num 1000) (Flt.num 0) (Flt.num 0)) restWorld).2.1 =
      Flt.num ((16384 : ℚ) * 2000 / 32768) ∧
    Flt.num ((16384 : ℚ) * 2000 / 32768) ≠ Flt.num ((16384 : ℚ) * 2000 / 32768 - 1000) := by
  have h : int16At (readRegisters simHw (wireDev (Flt.num 1000) (Flt.num 0) (Flt.num 0))
      LSM6DS3_OUTX_L_G (stackBuf simHw restWorld.bus 6) 6 restWorld).2.1 0 = 16384 := by decide
  have hc : (readRegisters simHw (wireDev (Flt.num 1000) (Flt.num 0) (Flt.num 0))
      LSM6DS3_OUTX_L_G (stackBuf simHw restWorld.bus 6) 6 restWorld).1 = 1 := by decide
  refine ⟨hc, h, by decide, ?_, ?_⟩
  · simp [readGyroscope, h, hc]
  · simp only [ne_eq, Flt.num.injEq]
    norm_num

/-! ## Claims on the drift calibrator -/

/-- More fuel does not change a result. -/
theorem calibrateLoop_fuel_succ {σ : Type} (hw : Hardware σ) (dev : LSM6DS3Class)
    (start T : Int) (fuel : Nat) :
    ∀ (n : Nat) (sx sy sz : Flt) (w : World σ) (r : Nat × Flt × Flt × Flt × World σ),
      calibrateLoop hw dev start T fuel n sx sy sz w = some r →
      calibrateLoop hw dev start T (fuel + 1) n sx sy sz w = some r := by
  induction fuel with
  | zero => intro n sx sy sz w r h; simp [calibrateLoop] at h
  | succ fuel ih =>
    intro n sx sy sz w r h
    rw [calibrateLoop] at h
    rw [calibrateLoop]
    split
    · rename_i ho
      rw [if_pos ho] at h
      split
      · rename_i ha
        rw [if_pos ha] at h
        exact ih _ _ _ _ _ _ h
      · rename_i ha
        rw [if_neg ha] at h
        exact ih _ _ _ _ _ _ h
    · rename_i ho
      rw [if_neg ho] at h
      exact h

theorem calibrateLoop_fuel_le {σ : Type} (hw : Hardware σ) (dev : LSM6DS3Class)
    (start T : Int) (fuel fuel' : Nat) (hle : fuel ≤ fuel')
    (n : Nat) (sx sy sz : Flt) (w : World σ) (r : Nat × Flt × Flt × Flt × World σ)
    (h : calibrateLoop hw dev start T fuel n sx sy sz w = some r) :
    calibrateLoop hw dev start T fuel' n sx sy sz w = some r := by
  induction hle with
  | refl => exact h
  | step _ ih => exact calibrateLoop_fuel_succ hw dev start T _ n sx sy sz w r ih

/-- When no poll of the window reports data the loop state is returned as it
was entered. -/
theorem calibrateLoop_no_data {σ : Type} (hw : Hardware σ) (dev : LSM6DS3Class)
    (start T : Int) (fuel : Nat) :
    ∀ (n : Nat) (sx sy sz : Flt) (w : World σ) (r : Nat × Flt × Flt × Flt × World σ),
      (∀ v ∈ windowPolls hw dev start T fuel w, (gyroscopeAvailable hw dev v).1 = 0) →
      calibrateLoop hw dev start T fuel n sx sy sz w = some r →
      r.1 = n ∧ r.2.1 = sx ∧ r.2.2.1 = sy ∧ r.2.2.2.1 = sz := by
  induction fuel with
  | zero => intro n sx sy sz w r _ h; simp [calibrateLoop] at h
  | succ fuel ih =>
    intro n sx sy sz w r hno h
    rw [calibrateLoop] at h
    rw [windowPolls] at hno
    by_cases ho : windowOpen (millis w).1 start T = true
    · rw [if_pos ho] at h hno
      have ha : (gyroscopeAvailable hw dev (millis w).2).1 = 0 :=
        hno _ (List.mem_cons_self _ _)
      have hna : ¬ (gyroscopeAvailable hw dev (millis w).2).1 ≠ 0 := by simp [ha]
      rw [if_neg hna] at h hno
      exact ih _ _ _ _ _ _ (fun v hv => hno v (List.mem_cons_of_mem _ hv)) h
    · rw [if_neg ho] at h
      cases h
      exact ⟨rfl, rfl, rfl, rfl⟩

/-- C5. If `gyroscopeAvailable` reports no data at every poll of the
calibration window, `calibrate` returns false and hands back the handle
unchanged, its three gyroscope offsets included: for every duration, every
prior handle, and every clock script that closes the window (at its `k`-th
test, so that `k + 1` units of fuel or more give the result). -/
theorem calibrate_without_data {σ : Type} (hw : Hardware σ) (dev : LSM6DS3Class)
    (calibrationTimeMs : Int) (w : World σ) (k : Nat)
    (hclose : windowClosedAt hw calibrationTimeMs w k = true)
    (hno : ∀ v ∈ calibrationPolls hw dev calibrationTimeMs (k + 1) w,
      (gyroscopeAvailable hw dev v).1 = 0) :
    ∃ w', ∀ fuel, k + 1 ≤ fuel →
      calibrate hw fuel calibrationTimeMs dev w = some (false, dev, w') := by
  have hk : windowOpen ((millis w).2.clock ((millis w).2.ticks + k) % 2 ^ 32)
      (toSigned hw.intBits (millis w).1) calibrationTimeMs = false := by
    simpa [windowClosedAt, millis] using hclose
  obtain ⟨r, hr⟩ := calibrateLoop_terminates hw dev (toSigned hw.intBits (millis w).1)
    calibrationTimeMs k 0 (Flt.num 0) (Flt.num 0) (Flt.num 0) (millis w).2 hk
  have h0 := (calibrateLoop_no_data hw dev _ _ (k + 1) 0 _ _ _ _ r hno hr).1
  refine ⟨r.2.2.2.2.onBus (hw.serialPrintln "Not enough samples to calibrate IMU!"), ?_⟩
  intro fuel hfuel
  have hf := calibrateLoop_fuel_le hw dev _ _ (k + 1) fuel hfuel 0 _ _ _ _ r hr
  obtain ⟨n, sx, sy, sz, w1⟩ := r
  simp only at h0
  subst h0
  simp [calibrate, hf]

theorem readGyroscope_of_raw {σ : Type} (hw : Hardware σ) (dev : LSM6DS3Class)
    (v : World σ) (a b c : Int) (h : gyroReadsRaw hw dev v a b c = true) :
    (readGyroscope hw dev v).2.1 = Flt.num ((a : ℚ) * 2000 / 32768) ∧
    (readGyroscope hw dev v).2.2.1 = Flt.num ((b : ℚ) * 2000 / 32768) ∧
    (readGyroscope hw dev v).2.2.2.1 = Flt.num ((c : ℚ) * 2000 / 32768) := by
  simp only [gyroReadsRaw, Bool.and_eq_true, decide_eq_true_eq] at h
  obtain ⟨⟨⟨h1, ha⟩, hb⟩, hc⟩ := h
  simp [readGyroscope, h1, ha, hb, hc]

/-- C5, instance: 250 ms window closed at its third test, sensor without data,
handle holding offsets (7, 8, 9): `calibrate` returns false, handle unchanged. -/
theorem calibrate_without_data_witness :
    ∃ w', ∀ fuel, 2 + 1 ≤ fuel →
      calibrate simHw fuel 250 (wireDev (Flt.num 7) (Flt.num 8) (Flt.num 9)) idleWorld =
        some (false, wireDev (Flt.num 7) (Flt.num 8) (Flt.num 9), w') :=
  calibrate_without_data simHw (wireDev (Flt.num 7) (Flt.num 8) (Flt.num 9)) 250 idleWorld 2
    (by decide) (by decide)

/-! ## Claims on the configuration sequencer -/

theorem beginTransport_world {σ : Type} (hw : Hardware σ) (dev : LSM6DS3Class) (w : World σ) :
    (beginTransport hw dev w).log = w.log ∧ (beginTransport hw dev w).clock = w.clock ∧
    (beginTransport hw dev w).ticks = w.ticks := by
  unfold beginTransport
  split <;> exact ⟨rfl, rfl, rfl⟩

/-- The accesses of `end()`: none on the serial transport, the two power-down
writes on the two-wire transport. -/
theorem end_log {σ : Type} (hw : Hardware σ) (dev : LSM6DS3Class) (w : World σ) :
    (end_ hw dev w).log = w.log ++
      (if dev.spi then []
       else [Access.write LSM6DS3_CTRL2_G 0x00, Access.write LSM6DS3_CTRL1_XL 0x00]) := by
  unfold end_
  split
  · simp [World.onBus]
  · simp [World.onBus, writeRegister, World.record]

/-- Register access depends on the handle through its transport members only. -/
theorem readRegister_transport {σ : Type} (hw : Hardware σ) (d1 d2 : LSM6DS3Class)
    (hs : d1.spi = d2.spi) (ha : d1.slaveAddress = d2.slaveAddress) (hc : d1.csPin = d2.csPin)
    (address : Nat) (w : World σ) :
    readRegister hw d1 address w = readRegister hw d2 address w := by
  simp [readRegister, readRegisters, readRegistersBus, hs, ha, hc]

theorem writeRegister_transport {σ : Type} (hw : Hardware σ) (d1 d2 : LSM6DS3Class)
    (hs : d1.spi = d2.spi) (ha : d1.slaveAddress = d2.slaveAddress) (hc : d1.csPin = d2.csPin)
    (address value : Nat) (w : World σ) :
    writeRegister hw d1 address value w = writeRegister hw d2 address value w := by
  simp [writeRegister, writeRegisterBus, hs, ha, hc]

theorem configureFifo_transport {σ : Type} (hw : Hardware σ) (d1 d2 : LSM6DS3Class)
    (hs : d1.spi = d2.spi) (ha : d1.slaveAddress = d2.slaveAddress) (hc : d1.csPin = d2.csPin)
    (w : World σ) : configureFifo hw d1 w = configureFifo hw d2 w := by
  simp only [configureFifo, readRegister_transport hw d1 d2 hs ha hc,
    writeRegister_transport hw d1 d2 hs ha hc]

/-- The accesses of the FIFO set-up: the read of control register 3, its
write-back with bit 6 set, and the two FIFO control writes. -/
theorem configureFifo_log {σ : Type} (hw : Hardware σ) (dev : LSM6DS3Class) (w : World σ) :
    (configureFifo hw dev w).log = w.log ++
      [Access.read LSM6DS3_CTRL3_C 1,
       Access.write LSM6DS3_CTRL3_C (byteOf (readRegister hw dev LSM6DS3_CTRL3_C w).1 ||| 0x40),
       Access.write LSM6DS3_FIFO_CTRL3 0x11, Access.write LSM6DS3_FIFO_CTRL5 0x26] := by
  simp [configureFifo, (writeRegister_world hw dev _ _ _).1,
    (readRegister_world hw dev _ _).1, byteOf]

/-- A call of `calibrate` returns once the clock script closes the window; it
issues register reads only and changes nothing but the drift members. -/
theorem calibrate_returns {σ : Type} (hw : Hardware σ) (dev : LSM6DS3Class)
    (T : Int) (w : World σ) (k : Nat) (hclose : windowClosedAt hw T w k = true) :
    ∃ (b : Bool) (dev1 : LSM6DS3Class) (w1 : World σ) (cal : List Access),
      (∀ fuel, k + 1 ≤ fuel → calibrate hw fuel T dev w = some (b, dev1, w1)) ∧
      dev1.spi = dev.spi ∧ dev1.slaveAddress = dev.slaveAddress ∧ dev1.csPin = dev.csPin ∧
      w1.log = w.log ++ cal ∧ writesOf cal = [] := by
  have hk : windowOpen ((millis w).2.clock ((millis w).2.ticks + k) % 2 ^ 32)
      (toSigned hw.intBits (millis w).1) T = false := by
    simpa [windowClosedAt, millis] using hclose
  obtain ⟨r, hr⟩ := calibrateLoop_terminates hw dev (toSigned hw.intBits (millis w).1)
    T k 0 (Flt.num 0) (Flt.num 0) (Flt.num 0) (millis w).2 hk
  obtain ⟨⟨cal, hcal, hwr⟩, _⟩ := calibrateLoop_world hw dev _ _ _ _ _ _ _ _ r hr
  have hf : ∀ fuel, k + 1 ≤ fuel → calibrateLoop hw dev (toSigned hw.intBits (millis w).1)
      T fuel 0 (Flt.num 0) (Flt.num 0) (Flt.num 0) (millis w).2 = some r :=
    fun fuel hfuel => calibrateLoop_fuel_le hw dev _ _ (k + 1) fuel hfuel 0 _ _ _ _ r hr
  obtain ⟨n, sx, sy, sz, w1⟩ := r
  have hlog : w1.log = w.log ++ cal := by simpa [millis] using hcal
  by_cases hn : n = 0
  · refine ⟨false, dev, w1.onBus (hw.serialPrintln "Not enough samples to calibrate IMU!"),
      cal, ?_, rfl, rfl, rfl, ?_, hwr⟩
    · intro fuel hfuel
      simp [calibrate, hf fuel hfuel, hn]
    · simpa [World.onBus] using hlog
  · refine ⟨true, { dev with
        gyroXDrift := sx.divInt n
        gyroYDrift := sy.divInt n
        gyroZDrift := sz.divInt n }, w1, cal, ?_, rfl, rfl, rfl, hlog, hwr⟩
    intro fuel hfuel
    simp [calibrate, hf fuel hfuel, hn]

/-- C3, as stated, fails on the two-wire transport: with identity byte 0x00
`begin` returns 0 but its trace after the identity read holds the two
power-down writes of `end()`. -/
theorem begin_mismatch_wire_writes :
    ∃ w', begin simHw 0 false (wireDev (Flt.num 0) (Flt.num 0) (Flt.num 0)) idleWorld =
        some (0, wireDev (Flt.num 0) (Flt.num 0) (Flt.num 0), w') ∧
      w'.log = [Access.read 0x0F 1, Access.write 0x11 0x00, Access.write 0x10 0x00] ∧
      writesOf (w'.log.drop 1) = [(0x11, 0x00), (0x10, 0x00)] ∧
      writesOf (w'.log.drop 1) ≠ [] :=
  ⟨_, rfl, by decide, by decide, by decide⟩

/-- C3, amended. For every transport and every `useFIFO`, if the identity read
made by `begin` yields anything but 0x69 (the failure sentinel -1 included),
`begin` returns 0 with the handle untouched and none of the configuration
writes is issued: after the identity read the trace is empty on the serial
transport, and on the two-wire transport it is exactly the two power-down
writes (0x11, 0x00), (0x10, 0x00) of `end()`. -/
theorem begin_identity_mismatch {σ : Type} (hw : Hardware σ) (dev : LSM6DS3Class)
    (useFIFO : Bool) (fuel : Nat) (w : World σ)
    (hid : (readRegister hw dev LSM6DS3_WHO_AM_I_REG (beginTransport hw dev w)).1 ≠ 0x69) :
    ∃ w', begin hw fuel useFIFO dev w = some (0, dev, w') ∧
      w'.log = w.log ++ Access.read 0x0F 1 ::
        (if dev.spi then [] else [Access.write 0x11 0x00, Access.write 0x10 0x00]) := by
  refine ⟨end_ hw dev (readRegister hw dev LSM6DS3_WHO_AM_I_REG (beginTransport hw dev w)).2,
    ?_, ?_⟩
  · simp [begin, hid]
  · rw [end_log, (readRegister_world hw dev _ _).1, (beginTransport_world hw dev w).1]
    simp [LSM6DS3_WHO_AM_I_REG, LSM6DS3_CTRL2_G, LSM6DS3_CTRL1_XL]

/-- C3 amended, instances: a sensor answering 0x00 as identity, on the serial
and on the two-wire transport. -/
theorem begin_identity_mismatch_witness :
    (∃ w', begin simHw 0 true (spiDev (Flt.num 0) (Flt.num 0) (Flt.num 0)) idleWorld =
        some (0, spiDev (Flt.num 0) (Flt.num 0) (Flt.num 0), w') ∧
      w'.log = idleWorld.log ++ Access.read 0x0F 1 ::
        (if (spiDev (Flt.num 0) (Flt.num 0) (Flt.num 0)).spi then []
         else [Access.write 0x11 0x00, Access.write 0x10 0x00])) ∧
    (∃ w', begin simHw 0 true (wireDev (Flt.num 0) (Flt.num 0) (Flt.num 0)) idleWorld =
        some (0, wireDev (Flt.num 0) (Flt.num 0) (Flt.num 0), w') ∧
      w'.log = idleWorld.log ++ Access.read 0x0F 1 ::
        (if (wireDev (Flt.num 0) (Flt.num 0) (Flt.num 0)).spi then []
         else [Access.write 0x11 0x00, Access.write 0x10 0x00])) :=
  ⟨begin_identity_mismatch simHw (spiDev (Flt.num 0) (Flt.num 0) (Flt.num 0)) true 0 idleWorld
      (by decide),
   begin_identity_mismatch simHw (wireDev (Flt.num 0) (Flt.num 0) (Flt.num 0)) true 0 idleWorld
      (by decide)⟩

theorem or_bit6 (c i : Nat) : (c ||| 0x40).testBit i = (c.testBit i || decide (i = 6)) := by
  rw [Nat.testBit_or]
  have h : Nat.testBit 0x40 i = decide (6 = i) := by
    have := @Nat.testBit_two_pow 6 i
    simpa using this
  rw [h]
  congr 1
  simp [eq_comm]

theorem byteOf_byte (s : Nat) (hs : s < 256) : byteOf (s : Int) = s := by
  unfold byteOf
  omega

/-! ## Claim on the register round trip -/

theorem lor_high_bit (a : Nat) (ha : a < 128) : 0x80 ||| a = 128 + a := by
  revert a
  decide

/-- C9, as stated, fails on the serial transport for an address with the high
bit set: `writeRegister(0x80, 1)` returns 1 but clocks out a first byte that
the bus framing reads as "read register 0", so nothing is stored and the
following `readRegister(0x80)` returns the old content 0, not 1. -/
theorem round_trip_fails_high_address :
    (writeRegister simHw (spiDev (Flt.num 0) (Flt.num 0) (Flt.num 0)) 0x80 1 idleWorld).1 = 1 ∧
    (readRegister simHw (spiDev (Flt.num 0) (Flt.num 0) (Flt.num 0)) 0x80
      (writeRegister simHw (spiDev (Flt.num 0) (Flt.num 0) (Flt.num 0)) 0x80 1
        idleWorld).2).1 = 0 ∧
    (readRegister simHw (spiDev (Flt.num 0) (Flt.num 0) (Flt.num 0)) 0x80
      (writeRegister simHw (spiDev (Flt.num 0) (Flt.num 0) (Flt.num 0)) 0x80 1
        idleWorld).2).1 ≠ 1 := by
  decide

/-- C9, amended. Over the register-file test double, `writeRegister(a, v)`
returns 1 and a following `readRegister(a)` returns exactly `v` (a value in
0..255, never -1): for every address and byte on the two-wire transport (the
double acknowledging and delivering the byte asked for), and for every byte and
every address below 0x80 on the serial transport, where the high bit of the
address byte is the read flag. -/
theorem register_round_trip (dev : LSM6DS3Class) (w : World Sim) (a v : Nat)
    (ha : a < 256) (hv : v < 256)
    (hack : dev.spi = false → w.bus.ack = true ∧ 1 ≤ w.bus.deliver)
    (hlow : dev.spi = true → a < 0x80) :
    (writeRegister simHw dev a v w).1 = 1 ∧
    (readRegister simHw dev a (writeRegister simHw dev a v w).2).1 = (v : Int) ∧
    (readRegister simHw dev a (writeRegister simHw dev a v w).2).1 ≠ -1 := by
  have hne : ((v : Nat) : Int) ≠ -1 := by omega
  cases hspi : dev.spi with
  | true =>
    have h128 := hlow hspi
    have hor := lor_high_bit a h128
    have hmod : (128 + a) % 128 = a := by omega
    have hamod : a % 128 = a := by omega
    have hna : ¬ 128 ≤ a := by omega
    have hvm : v % 256 = v := by omega
    refine ⟨?_, ?_, ?_⟩
    · simp [writeRegister, writeRegisterBus, hspi]
    · simp [writeRegister, writeRegisterBus, readRegister, readRegisters, readRegistersBus,
        hspi, simHw, World.record, stackBuf, spiTransferBuf, hor, hmod, hamod, hna, hvm]
    · simp [writeRegister, writeRegisterBus, readRegister, readRegisters, readRegistersBus,
        hspi, simHw, World.record, stackBuf, spiTransferBuf, hor, hmod, hamod, hna, hvm]
  | false =>
    obtain ⟨hk, hd⟩ := hack hspi
    have hmin : min 1 w.bus.deliver = 1 := by omega
    have hvm : (v : Int) % 256 = v := by omega
    have hr1 : List.range 1 = [0] := rfl
    refine ⟨?_, ?_, ?_⟩
    · simp [writeRegister, writeRegisterBus, hspi, simHw, World.record, hk]
    · simp [writeRegister, writeRegisterBus, readRegister, readRegisters, readRegistersBus,
        hspi, simHw, World.record, stackBuf, wireReadN, hk, hmin, hvm, hr1]
    · simp [writeRegister, writeRegisterBus, readRegister, readRegisters, readRegistersBus,
        hspi, simHw, World.record, stackBuf, wireReadN, hk, hmin, hvm, hr1]

/-- C9 amended, instances: address 0x7F on the serial transport and address
0xFF on the two-wire transport, value 0xA5. -/
theorem register_round_trip_witness :
    ((writeRegister simHw (spiDev (Flt.num 0) (Flt.num 0) (Flt.num 0)) 0x7F 0xA5 idleWorld).1 = 1 ∧
      (readRegister simHw (spiDev (Flt.num 0) (Flt.num 0) (Flt.num 0)) 0x7F
        (writeRegister simHw (spiDev (Flt.num 0) (Flt.num 0) (Flt.num 0)) 0x7F 0xA5
          idleWorld).2).1 = ((0xA5 : Nat) : Int) ∧
      (readRegister simHw (spiDev (Flt.num 0) (Flt.num 0) (Flt.num 0)) 0x7F
        (writeRegister simHw (spiDev (Flt.num 0) (Flt.num 0) (Flt.num 0)) 0x7F 0xA5
          idleWorld).2).1 ≠ -1) ∧
    ((writeRegister simHw (wireDev (Flt.num 0) (Flt.num 0) (Flt.num 0)) 0xFF 0xA5 idleWorld).1 = 1 ∧
      (readRegister simHw (wireDev (Flt.num 0) (Flt.num 0) (Flt.num 0)) 0xFF
        (writeRegister simHw (wireDev (Flt.num 0) (Flt.num 0) (Flt.num 0)) 0xFF 0xA5
          idleWorld).2).1 = ((0xA5 : Nat) : Int) ∧
      (readRegister simHw (wireDev (Flt.num 0) (Flt.num 0) (Flt.num 0)) 0xFF
        (writeRegister simHw (wireDev (Flt.num 0) (Flt.num 0) (Flt.num 0)) 0xFF 0xA5
          idleWorld).2).1 ≠ -1) :=
  ⟨register_round_trip (spiDev (Flt.num 0) (Flt.num 0) (Flt.num 0)) idleWorld 0x7F 0xA5
      (by decide) (by decide) (by decide) (by decide),
   register_round_trip (wireDev (Flt.num 0) (Flt.num 0) (Flt.num 0)) idleWorld 0xFF 0xA5
      (by decide) (by decide) (by decide) (by decide)⟩

/-! ## Float rounding -/

theorem roundHalfEven_intCast (z : Int) : roundHalfEven (z : ℚ) = z := by
  unfold roundHalfEven
  simp

/-- A rational `m * 2^t` with `|m| < 2^24` is a `float`: rounding keeps it. -/
theorem roundF32_exact (m t : Int) (hm : |m| < 2 ^ 24) :
    roundF32 ((m : ℚ) * 2 ^ t) = (m : ℚ) * 2 ^ t := by
  by_cases h0 : m = 0
  · subst h0; simp [roundF32]
  have hmq : (m : ℚ) ≠ 0 := by exact_mod_cast h0
  have h2 : (2 : ℚ) ≠ 0 := by norm_num
  have hq : (m : ℚ) * 2 ^ t ≠ 0 := mul_ne_zero hmq (zpow_ne_zero t h2)
  have habs : |(m : ℚ) * 2 ^ t| = |(m : ℚ)| * 2 ^ t := by
    rw [abs_mul, abs_of_pos (zpow_pos (by norm_num : (0 : ℚ) < 2) t)]
  have hpos : 0 < |(m : ℚ) * 2 ^ t| := abs_pos.mpr hq
  have hlog := Int.zpow_log_le_self (b := 2) (by norm_num) hpos
  have hmlt : |(m : ℚ)| < 2 ^ (24 : ℤ) := by
    have h1 : ((|m| : Int) : ℚ) < ((2 ^ 24 : Int) : ℚ) := by exact_mod_cast hm
    have h3 : (2 : ℚ) ^ (24 : ℤ) = ((2 ^ 24 : Int) : ℚ) := by norm_num
    rw [h3]
    simpa using h1
  have hlt : |(m : ℚ) * 2 ^ t| < (2 : ℚ) ^ (24 + t) := by
    rw [habs, zpow_add₀ h2]
    exact mul_lt_mul_of_pos_right hmlt (zpow_pos (by norm_num) t)
  have hpow : ((2 : ℕ) : ℚ) ^ Int.log 2 |(m : ℚ) * 2 ^ t| < (2 : ℚ) ^ (24 + t) :=
    lt_of_le_of_lt hlog hlt
  have he : Int.log 2 |(m : ℚ) * 2 ^ t| < 24 + t := by
    have := (zpow_lt_zpow_iff_right₀ (by norm_num : (1 : ℚ) < 2)).mp (by simpa using hpow)
    exact this
  obtain ⟨d, hd⟩ : ∃ d : ℕ, (d : ℤ) = 23 + t - Int.log 2 |(m : ℚ) * 2 ^ t| :=
    ⟨(23 + t - Int.log 2 |(m : ℚ) * 2 ^ t|).toNat, by omega⟩
  have hdiv : (m : ℚ) * 2 ^ t / 2 ^ (Int.log 2 |(m : ℚ) * 2 ^ t| - 23) =
      ((m * 2 ^ d : Int) : ℚ) := by
    rw [mul_div_assoc, ← zpow_sub₀ h2]
    have : t - (Int.log 2 |(m : ℚ) * 2 ^ t| - 23) = (d : ℤ) := by omega
    rw [this, zpow_natCast]
    push_cast
    ring
  unfold roundF32
  rw [if_neg hq, hdiv, roundHalfEven_intCast]
  push_cast
  rw [mul_assoc, ← zpow_natCast, ← zpow_add₀ h2]
  congr 2
  omega

/-- The value of `roundF32` from the binade of its argument. -/
theorem roundF32_of_binade (q : ℚ) (e : Int) (hq : q ≠ 0) (h1 : (2 : ℚ) ^ e ≤ |q|)
    (h2 : |q| < (2 : ℚ) ^ (e + 1)) :
    roundF32 q = (roundHalfEven (q / 2 ^ (e - 23)) : ℚ) * 2 ^ (e - 23) := by
  have hpos : 0 < |q| := abs_pos.mpr hq
  have hle : e ≤ Int.log 2 |q| :=
    (Int.zpow_le_iff_le_log (b := 2) (by norm_num) hpos).mp (by simpa using h1)
  have hlt : Int.log 2 |q| < e + 1 :=
    (Int.lt_zpow_iff_log_lt (b := 2) (by norm_num) hpos).mp (by simpa using h2)
  have he : Int.log 2 |q| = e := by omega
  unfold roundF32
  rw [if_neg hq, he]

/-- The value of `roundHalfEven` from the floor of its argument. -/
theorem roundHalfEven_of_floor (x : ℚ) (f : Int) (h1 : (f : ℚ) ≤ x) (h2 : x < f + 1) :
    roundHalfEven x =
      if x - f < 1 / 2 then f else if 1 / 2 < x - f then f + 1
      else if f % 2 = 0 then f else f + 1 := by
  have hf : ⌊x⌋ = f := Int.floor_eq_iff.mpr ⟨h1, h2⟩
  unfold roundHalfEven
  rw [hf]

/-- The conversion factor of the gyroscope as a dyadic rational. -/
theorem gyro_scale_dyadic (a : Int) :
    (a : ℚ) * 2000 / 32768 = ((125 * a : Int) : ℚ) * 2 ^ (-11 : ℤ) := by
  have h : (2 : ℚ) ^ (-11 : ℤ) = 1 / 2048 := by norm_num
  rw [h]
  push_cast
  ring

/-- While `(j + k) * |m| < 2^24` the float sum of `k` more readings `m * 2^t`
on top of `j` of them is the exact sum. -/
theorem accumulate_exact (m t : Int) (k : Nat) :
    ∀ j : Nat, ((j + k : Nat) : Int) * |m| < 2 ^ 24 →
      accumulate ((m : ℚ) * 2 ^ t) k (Flt.num ((j : ℚ) * ((m : ℚ) * 2 ^ t))) =
        Flt.num (((j + k : Nat) : ℚ) * ((m : ℚ) * 2 ^ t)) := by
  induction k with
  | zero => intro j _; simp [accumulate]
  | succ k ih =>
    intro j hj
    have hstep : ((j : ℚ) * ((m : ℚ) * 2 ^ t) + (m : ℚ) * 2 ^ t) =
        (((j + 1 : Nat) * m : Int) : ℚ) * 2 ^ t := by push_cast; ring
    have hm0 : 0 ≤ |m| := abs_nonneg m
    have hsmall : |((j + 1 : Nat) : Int) * m| < 2 ^ 24 := by
      rw [abs_mul, abs_of_nonneg (by positivity : (0 : Int) ≤ ((j + 1 : Nat) : Int))]
      have : ((j + 1 : Nat) : Int) * |m| ≤ ((j + (k + 1) : Nat) : Int) * |m| :=
        mul_le_mul_of_nonneg_right (by push_cast; omega) hm0
      omega
    have hround := roundF32_exact (((j + 1 : Nat) : Int) * m) t hsmall
    have hnext := ih (j + 1) (by
      have : j + 1 + k = j + (k + 1) := by omega
      rw [this]; exact hj)
    rw [accumulate]
    simp only [Flt.add]
    rw [hstep, hround]
    have hcast : ((((j + 1 : Nat) : Int) * m : Int) : ℚ) * 2 ^ t =
        ((j + 1 : Nat) : ℚ) * ((m : ℚ) * 2 ^ t) := by push_cast; ring
    rw [hcast, hnext]
    congr 2
    have : j + 1 + k = j + (k + 1) := by omega
    rw [this]

/-- While `N * |m| < 2^24` the float mean of `N >= 1` readings `m * 2^t`
is the reading itself. -/
theorem float_mean_exact (m t : Int) (N : Nat) (hN : 1 ≤ N)
    (hb : (N : Int) * |m| < 2 ^ 24) :
    (accumulate ((m : ℚ) * 2 ^ t) N (Flt.num 0)).divInt N = Flt.num ((m : ℚ) * 2 ^ t) := by
  have hacc := accumulate_exact m t N 0 (by simpa using hb)
  simp only [Nat.cast_zero, zero_mul, Nat.zero_add] at hacc
  rw [hacc]
  have hN0 : (N : Int) ≠ 0 := by omega
  have hNq : (N : ℚ) ≠ 0 := by exact_mod_cast (by omega : N ≠ 0)
  simp only [Flt.divInt, if_neg hN0]
  congr 1
  by_cases h0 : m = 0
  · subst h0; simp [roundF32]
  · have hm1 : 1 ≤ |m| := by
      have := abs_pos.mpr h0
      omega
    have hNlt : |(N : Int)| < 2 ^ 24 := by
      rw [abs_of_nonneg (by positivity : (0 : Int) ≤ (N : Int))]
      nlinarith
    have hmlt : |m| < 2 ^ 24 := by nlinarith
    have hcount : roundF32 ((N : Int) : ℚ) = (N : ℚ) := by
      have := roundF32_exact (N : Int) 0 hNlt
      simpa using this
    rw [hcount]
    have hq : (N : ℚ) * ((m : ℚ) * 2 ^ t) / (N : ℚ) = (m : ℚ) * 2 ^ t := by
      field_simp
    rw [hq]
    exact roundF32_exact m t hmlt

/-- When every sample of the window is the raw triplet `(a, b, c)`, the loop
counts the samples and float-adds the converted triplet once per sample. -/
theorem calibrateLoop_constant {σ : Type} (hw : Hardware σ) (dev : LSM6DS3Class)
    (start T : Int) (a b c : Int) (fuel : Nat) :
    ∀ (n : Nat) (sx sy sz : Flt) (w : World σ) (r : Nat × Flt × Flt × Flt × World σ),
      (∀ v ∈ windowPolls hw dev start T fuel w, (gyroscopeAvailable hw dev v).1 ≠ 0 →
        gyroReadsRaw hw dev (gyroscopeAvailable hw dev v).2 a b c = true) →
      calibrateLoop hw dev start T fuel n sx sy sz w = some r →
      r.1 = n + samplesIn hw dev (windowPolls hw dev start T fuel w) ∧
      r.2.1 = accumulate ((a : ℚ) * 2000 / 32768)
        (samplesIn hw dev (windowPolls hw dev start T fuel w)) sx ∧
      r.2.2.1 = accumulate ((b : ℚ) * 2000 / 32768)
        (samplesIn hw dev (windowPolls hw dev start T fuel w)) sy ∧
      r.2.2.2.1 = accumulate ((c : ℚ) * 2000 / 32768)
        (samplesIn hw dev (windowPolls hw dev start T fuel w)) sz := by
  induction fuel with
  | zero => intro n sx sy sz w r _ h; simp [calibrateLoop] at h
  | succ fuel ih =>
    intro n sx sy sz w r hc h
    rw [calibrateLoop] at h
    rw [windowPolls] at hc ⊢
    by_cases ho : windowOpen (millis w).1 start T = true
    · rw [if_pos ho] at h hc ⊢
      by_cases ha : (gyroscopeAvailable hw dev (millis w).2).1 ≠ 0
      · rw [if_pos ha] at h hc ⊢
        have hg := readGyroscope_of_raw hw dev _ a b c (hc _ (List.mem_cons_self _ _) ha)
        simp only [hg.1, hg.2.1, hg.2.2] at h
        have := ih _ _ _ _ _ _ (fun v hv => hc v (List.mem_cons_of_mem _ hv)) h
        obtain ⟨h1, h2, h3, h4⟩ := this
        have hcount : samplesIn hw dev ((millis w).2 :: windowPolls hw dev start T fuel
            (readGyroscope hw dev (gyroscopeAvailable hw dev (millis w).2).2).2.2.2.2) =
            samplesIn hw dev (windowPolls hw dev start T fuel
              (readGyroscope hw dev (gyroscopeAvailable hw dev (millis w).2).2).2.2.2.2) + 1 := by
          simp [samplesIn, List.countP_cons, ha]
        rw [hcount, h1, h2, h3, h4]
        exact ⟨by omega, rfl, rfl, rfl⟩
      · rw [if_neg ha] at h hc ⊢
        have := ih _ _ _ _ _ _ (fun v hv => hc v (List.mem_cons_of_mem _ hv)) h
        have hcount : samplesIn hw dev ((millis w).2 :: windowPolls hw dev start T fuel
            (gyroscopeAvailable hw dev (millis w).2).2) =
            samplesIn hw dev (windowPolls hw dev start T fuel
              (gyroscopeAvailable hw dev (millis w).2).2) := by
          simp [samplesIn, List.countP_cons, ha]
        rw [hcount]
        exact this
    · rw [if_neg ho] at h ⊢
      cases h
      simp [samplesIn, accumulate]

/-- What `calibrate` stores when the window collects `N >= 1` samples, each
read succeeding with the raw triplet `(a, b, c)`: per axis, the float mean of
the float sum of `N` converted readings. -/
theorem calibrate_constant_float {σ : Type} (hw : Hardware σ) (dev : LSM6DS3Class)
    (calibrationTimeMs : Int) (w : World σ) (k N : Nat) (a b c : Int)
    (hclose : windowClosedAt hw calibrationTimeMs w k = true)
    (hN : samplesIn hw dev (calibrationPolls hw dev calibrationTimeMs (k + 1) w) = N)
    (hpos : 1 ≤ N)
    (hconst : ∀ v ∈ calibrationPolls hw dev calibrationTimeMs (k + 1) w,
      (gyroscopeAvailable hw dev v).1 ≠ 0 →
      gyroReadsRaw hw dev (gyroscopeAvailable hw dev v).2 a b c = true) :
    ∃ w', ∀ fuel, k + 1 ≤ fuel →
      calibrate hw fuel calibrationTimeMs dev w =
        some (true,
          { dev with
            gyroXDrift := (accumulate ((a : ℚ) * 2000 / 32768) N (Flt.num 0)).divInt N
            gyroYDrift := (accumulate ((b : ℚ) * 2000 / 32768) N (Flt.num 0)).divInt N
            gyroZDrift := (accumulate ((c : ℚ) * 2000 / 32768) N (Flt.num 0)).divInt N },
          w') := by
  have hk : windowOpen ((millis w).2.clock ((millis w).2.ticks + k) % 2 ^ 32)
      (toSigned hw.intBits (millis w).1) calibrationTimeMs = false := by
    simpa [windowClosedAt, millis] using hclose
  obtain ⟨r, hr⟩ := calibrateLoop_terminates hw dev (toSigned hw.intBits (millis w).1)
    calibrationTimeMs k 0 (Flt.num 0) (Flt.num 0) (Flt.num 0) (millis w).2 hk
  have hs := calibrateLoop_constant hw dev _ _ a b c (k + 1) 0 _ _ _ _ r hconst hr
  rw [show windowPolls hw dev (toSigned hw.intBits (millis w).1) calibrationTimeMs (k + 1)
    (millis w).2 = calibrationPolls hw dev calibrationTimeMs (k + 1) w from rfl, hN] at hs
  refine ⟨r.2.2.2.2, ?_⟩
  intro fuel hfuel
  have hf := calibrateLoop_fuel_le hw dev _ _ (k + 1) fuel hfuel 0 _ _ _ _ r hr
  obtain ⟨n, sx, sy, sz, w1⟩ := r
  obtain ⟨h1, h2, h3, h4⟩ := hs
  simp only at h1 h2 h3 h4
  have hn0 : n ≠ 0 := by omega
  have hn : n = N := by omega
  subst hn
  simp only [calibrate, hf, if_neg hn0, h2, h3, h4]

/-- C7, amended. If the calibration window collects exactly `N >= 1` samples,
every gyroscope read of the window succeeds with the same raw triplet
`(a, b, c)`, and `N * 125 * |a|`, `N * 125 * |b|`, `N * 125 * |c|` are below
`2^24` (every running `float` sum is then exactly representable; this covers
every raw triplet for `N <= 4`), then `calibrate` returns true and stores
exactly `(a*2000/32768, b*2000/32768, c*2000/32768)`, whatever `N` and whatever
offsets the handle held before. -/
theorem calibrate_constant_reading {σ : Type} (hw : Hardware σ) (dev : LSM6DS3Class)
    (calibrationTimeMs : Int) (w : World σ) (k N : Nat) (a b c : Int)
    (hclose : windowClosedAt hw calibrationTimeMs w k = true)
    (hN : samplesIn hw dev (calibrationPolls hw dev calibrationTimeMs (k + 1) w) = N)
    (hpos : 1 ≤ N)
    (hconst : ∀ v ∈ calibrationPolls hw dev calibrationTimeMs (k + 1) w,
      (gyroscopeAvailable hw dev v).1 ≠ 0 →
      gyroReadsRaw hw dev (gyroscopeAvailable hw dev v).2 a b c = true)
    (ha : (N : Int) * (125 * |a|) < 2 ^ 24)
    (hb : (N : Int) * (125 * |b|) < 2 ^ 24)
    (hc : (N : Int) * (125 * |c|) < 2 ^ 24) :
    ∃ w', ∀ fuel, k + 1 ≤ fuel →
      calibrate hw fuel calibrationTimeMs dev w =
        some (true,
          { dev with
            gyroXDrift := Flt.num ((a : ℚ) * 2000 / 32768)
            gyroYDrift := Flt.num ((b : ℚ) * 2000 / 32768)
            gyroZDrift := Flt.num ((c : ℚ) * 2000 / 32768) }, w') := by
  have habs : ∀ x : Int, |125 * x| = 125 * |x| := fun x => by
    rw [abs_mul]; norm_num
  obtain ⟨w', hw'⟩ := calibrate_constant_float hw dev calibrationTimeMs w k N a b c hclose hN
    hpos hconst
  refine ⟨w', fun fuel hfuel => ?_⟩
  rw [hw' fuel hfuel, gyro_scale_dyadic a, gyro_scale_dyadic b, gyro_scale_dyadic c,
    float_mean_exact (125 * a) (-11) N hpos (by rw [habs]; exact ha),
    float_mean_exact (125 * b) (-11) N hpos (by rw [habs]; exact hb),
    float_mean_exact (125 * c) (-11) N hpos (by rw [habs]; exact hc)]

theorem accumulate_split (q : ℚ) (j : Nat) :
    ∀ (k : Nat) (s : Flt), accumulate q (j + k) s = accumulate q k (accumulate q j s) := by
  induction j with
  | zero => intro k s; simp [accumulate]
  | succ j ih =>
    intro k s
    have : j + 1 + k = (j + k) + 1 := by omega
    rw [this, accumulate, ih, accumulate]

/-- The float sum of five readings of raw 32767, that is of 4095875/2048: the
fifth addition is a tie at 24 bits and rounds up to 20479376/2048. -/
theorem accumulate_five_max :
    accumulate ((32767 : ℚ) * 2000 / 32768) 5 (Flt.num 0) = Flt.num (1279961 / 128) := by
  have hq := gyro_scale_dyadic 32767
  have h4 := accumulate_exact (125 * 32767) (-11) 4 0 (by norm_num)
  simp only [Nat.cast_zero, zero_mul, Nat.zero_add] at h4
  have hq' : ((32767 : Int) : ℚ) * 2000 / 32768 = (32767 : ℚ) * 2000 / 32768 := by norm_num
  rw [← hq', hq, accumulate_split _ 4 1, h4]
  simp only [accumulate, Flt.add]
  congr 1
  have hval : ((4 : Nat) : ℚ) * (((125 * 32767 : Int) : ℚ) * 2 ^ (-11 : ℤ)) +
      ((125 * 32767 : Int) : ℚ) * 2 ^ (-11 : ℤ) = 20479375 / 2048 := by norm_num
  rw [hval, roundF32_of_binade (20479375 / 2048) 13 (by norm_num)
    (by rw [abs_of_pos (by norm_num)]; norm_num)
    (by rw [abs_of_pos (by norm_num)]; norm_num)]
  have hx : (20479375 / 2048 : ℚ) / 2 ^ ((13 : ℤ) - 23) = 20479375 / 2 := by norm_num
  rw [hx, roundHalfEven_of_floor (20479375 / 2) 10239687 (by norm_num) (by norm_num)]
  norm_num

/-- The float mean of that sum over five samples: 16383501/8192, one unit in
the last place above 4095875/2048. -/
theorem mean_five_max :
    (Flt.num (1279961 / 128)).divInt 5 = Flt.num (16383501 / 8192) := by
  have h5 : roundF32 ((5 : Int) : ℚ) = 5 := by
    have := roundF32_exact 5 0 (by norm_num)
    simpa using this
  simp only [Flt.divInt, h5]
  norm_num
  rw [roundF32_of_binade (1279961 / 640) 10 (by norm_num)
    (by rw [abs_of_pos (by norm_num)]; norm_num)
    (by rw [abs_of_pos (by norm_num)]; norm_num)]
  have hx : (1279961 / 640 : ℚ) / 2 ^ ((10 : ℤ) - 23) = 81917504 / 5 := by norm_num
  rw [hx, roundHalfEven_of_floor (81917504 / 5) 16383500 (by norm_num) (by norm_num)]
  norm_num

theorem mean_five_zero :
    (accumulate ((0 : Int) : ℚ) 5 (Flt.num 0)).divInt 5 = Flt.num 0 := by
  have := float_mean_exact 0 0 5 (by norm_num) (by norm_num)
  simpa using this

/-- C7, as stated, fails: five samples, every read succeeding with raw
(32767, 0, 0).  The fifth `float` addition rounds, and `calibrate` stores
16383501/8192 for X, not 32767*2000/32768 = 16383500/8192. -/
theorem calibrate_mean_rounds :
    samplesIn simHw (wireDev (Flt.num 0) (Flt.num 0) (Flt.num 0))
      (calibrationPolls simHw (wireDev (Flt.num 0) (Flt.num 0) (Flt.num 0)) 250 6 spinWorld)
      = 5 ∧
    (∀ v ∈ calibrationPolls simHw (wireDev (Flt.num 0) (Flt.num 0) (Flt.num 0)) 250 6
        spinWorld,
      (gyroscopeAvailable simHw (wireDev (Flt.num 0) (Flt.num 0) (Flt.num 0)) v).1 ≠ 0 ∧
      gyroReadsRaw simHw (wireDev (Flt.num 0) (Flt.num 0) (Flt.num 0))
        (gyroscopeAvailable simHw (wireDev (Flt.num 0) (Flt.num 0) (Flt.num 0)) v).2
        32767 0 0 = true) ∧
    (∃ w', calibrate simHw 6 250 (wireDev (Flt.num 0) (Flt.num 0) (Flt.num 0)) spinWorld =
      some (true,
        { wireDev (Flt.num 0) (Flt.num 0) (Flt.num 0) with
          gyroXDrift := Flt.num (16383501 / 8192)
          gyroYDrift := Flt.num 0
          gyroZDrift := Flt.num 0 }, w')) ∧
    Flt.num (16383501 / 8192) ≠ Flt.num ((32767 : ℚ) * 2000 / 32768) := by
  refine ⟨by decide, by decide, ?_, ?_⟩
  · obtain ⟨w', hw'⟩ := calibrate_constant_float simHw
      (wireDev (Flt.num 0) (Flt.num 0) (Flt.num 0)) 250 spinWorld 5 5 32767 0 0
      (by decide) (by decide) (by decide) (by decide)
    refine ⟨w', ?_⟩
    have hx : ((32767 : Int) : ℚ) * 2000 / 32768 = (32767 : ℚ) * 2000 / 32768 := by norm_num
    have hz : ((0 : Int) : ℚ) * 2000 / 32768 = ((0 : Int) : ℚ) := by norm_num
    have h5 : ((5 : Nat) : Int) = 5 := rfl
    rw [hw' 6 (by decide), hx, hz, accumulate_five_max, h5, mean_five_max, mean_five_zero]
  · simp only [ne_eq, Flt.num.injEq]
    norm_num

/-- C7 amended, instance: 250 ms window closed at its third test, two samples
of raw (16384, 0, 0), handle holding offsets (7, 8, 9): `calibrate` returns true
and stores (16384*2000/32768, 0, 0), that is (1000, 0, 0). -/
theorem calibrate_constant_reading_witness :
    ∃ w', ∀ fuel, 2 + 1 ≤ fuel →
      calibrate simHw fuel 250 (wireDev (Flt.num 7) (Flt.num 8) (Flt.num 9)) restWorld =
        some (true,
          { wireDev (Flt.num 7) (Flt.num 8) (Flt.num 9) with
            gyroXDrift := Flt.num (((16384 : Int) : ℚ) * 2000 / 32768)
            gyroYDrift := Flt.num (((0 : Int) : ℚ) * 2000 / 32768)
            gyroZDrift := Flt.num (((0 : Int) : ℚ) * 2000 / 32768) }, w') :=
  calibrate_constant_reading simHw (wireDev (Flt.num 7) (Flt.num 8) (Flt.num 9)) 250 restWorld
    2 2 16384 0 0 (by decide) (by decide) (by decide) (by decide) (by decide) (by decide)
    (by decide)

/-! ## A transport-logging test double -/

theorem Emits.nil : Emits [] [] := fun wb sb _ => ⟨wb, sb, rfl⟩

theorem Emits.append {e1 e2 : List BusEvent} {o1 o2 : List (Nat × Nat)}
    (h1 : Emits e1 o1) (h2 : Emits e2 o2) : Emits (e1 ++ e2) (o1 ++ o2) := by
  intro wb sb rest
  obtain ⟨wb1, sb1, hA⟩ := h1 wb sb (e2 ++ rest)
  obtain ⟨wb2, sb2, hB⟩ := h2 wb1 sb1 rest
  exact ⟨wb2, sb2, by rw [List.append_assoc, hA, hB, List.append_assoc]⟩

theorem Emits.busWrites {evs : List BusEvent} {out : List (Nat × Nat)} (h : Emits evs out)
    (wb sb : List Nat) : busWritesFrom wb sb evs = out := by
  obtain ⟨wb', sb', hA⟩ := h wb sb []
  simpa [busWritesFrom] using hA

theorem Traced.refl {σ : Type} (w : World (σ × List BusEvent)) : Traced w w [] :=
  ⟨[], by simp, Emits.nil⟩

theorem Traced.trans {σ : Type} {w w1 w2 : World (σ × List BusEvent)}
    {o1 o2 : List (Nat × Nat)} (h1 : Traced w w1 o1) (h2 : Traced w1 w2 o2) :
    Traced w w2 (o1 ++ o2) := by
  obtain ⟨e1, he1, hE1⟩ := h1
  obtain ⟨e2, he2, hE2⟩ := h2
  exact ⟨e1 ++ e2, by rw [he2, he1, List.append_assoc], hE1.append hE2⟩

theorem Traced.of_bus_eq {σ : Type} {w w1 : World (σ × List BusEvent)} (h : w1.bus = w.bus) :
    Traced w w1 [] :=
  ⟨[], by simp [h], Emits.nil⟩

/-! ## Bus traces of the register access layer -/

@[simp] theorem logging_stack {σ : Type} (hw : Hardware σ) (s : σ × List BusEvent) (i : Nat) :
    (logging hw).stack s i = hw.stack s.1 i := rfl

@[simp] theorem logging_pinMode {σ : Type} (hw : Hardware σ) (p : Int) (m : Bool)
    (s : σ × List BusEvent) :
    (logging hw).pinMode p m s = (hw.pinMode p m s.1, s.2 ++ [BusEvent.pinMode p m]) := rfl

@[simp] theorem logging_digitalWrite {σ : Type} (hw : Hardware σ) (p : Int) (v : Bool)
    (s : σ × List BusEvent) :
    (logging hw).digitalWrite p v s =
      (hw.digitalWrite p v s.1, s.2 ++ [BusEvent.digitalWrite p v]) := rfl

@[simp] theorem logging_spiBegin {σ : Type} (hw : Hardware σ) (s : σ × List BusEvent) :
    (logging hw).spiBegin s = (hw.spiBegin s.1, s.2 ++ [BusEvent.spiBegin]) := rfl

@[simp] theorem logging_spiEnd {σ : Type} (hw : Hardware σ) (s : σ × List BusEvent) :
    (logging hw).spiEnd s = (hw.spiEnd s.1, s.2 ++ [BusEvent.spiEnd]) := rfl

@[simp] theorem logging_spiBeginTransaction {σ : Type} (hw : Hardware σ)
    (s : σ × List BusEvent) :
    (logging hw).spiBeginTransaction s =
      (hw.spiBeginTransaction s.1, s.2 ++ [BusEvent.spiBeginTransaction]) := rfl

@[simp] theorem logging_spiEndTransaction {σ : Type} (hw : Hardware σ)
    (s : σ × List BusEvent) :
    (logging hw).spiEndTransaction s =
      (hw.spiEndTransaction s.1, s.2 ++ [BusEvent.spiEndTransaction]) := rfl

@[simp] theorem logging_spiTransfer {σ : Type} (hw : Hardware σ) (b : Nat)
    (s : σ × List BusEvent) :
    (logging hw).spiTransfer b s =
      ((hw.spiTransfer b s.1).1, ((hw.spiTransfer b s.1).2, s.2 ++ [BusEvent.spiTransfer b])) :=
  rfl

@[simp] theorem logging_wireBegin {σ : Type} (hw : Hardware σ) (s : σ × List BusEvent) :
    (logging hw).wireBegin s = (hw.wireBegin s.1, s.2 ++ [BusEvent.wireBegin]) := rfl

@[simp] theorem logging_wireEnd {σ : Type} (hw : Hardware σ) (s : σ × List BusEvent) :
    (logging hw).wireEnd s = (hw.wireEnd s.1, s.2 ++ [BusEvent.wireEnd]) := rfl

@[simp] theorem logging_wireBeginTransmission {σ : Type} (hw : Hardware σ) (a : Nat)
    (s : σ × List BusEvent) :
    (logging hw).wireBeginTransmission a s =
      (hw.wireBeginTransmission a s.1, s.2 ++ [BusEvent.wireBeginTransmission a]) := rfl

@[simp] theorem logging_wireWrite {σ : Type} (hw : Hardware σ) (b : Nat)
    (s : σ × List BusEvent) :
    (logging hw).wireWrite b s = (hw.wireWrite b s.1, s.2 ++ [BusEvent.wireWrite b]) := rfl

@[simp] theorem logging_wireEndTransmission {σ : Type} (hw : Hardware σ) (stop : Bool)
    (s : σ × List BusEvent) :
    (logging hw).wireEndTransmission stop s =
      ((hw.wireEndTransmission stop s.1).1,
        ((hw.wireEndTransmission stop s.1).2, s.2 ++ [BusEvent.wireEndTransmission stop])) :=
  rfl

@[simp] theorem logging_wireRequestFrom {σ : Type} (hw : Hardware σ) (a n : Nat)
    (s : σ × List BusEvent) :
    (logging hw).wireRequestFrom a n s =
      ((hw.wireRequestFrom a n s.1).1,
        ((hw.wireRequestFrom a n s.1).2, s.2 ++ [BusEvent.wireRequestFrom a n])) := rfl

@[simp] theorem logging_wireRead {σ : Type} (hw : Hardware σ) (s : σ × List BusEvent) :
    (logging hw).wireRead s =
      ((hw.wireRead s.1).1, ((hw.wireRead s.1).2, s.2 ++ [BusEvent.wireRead])) := rfl

@[simp] theorem logging_serialPrintln {σ : Type} (hw : Hardware σ) (t : String)
    (s : σ × List BusEvent) :
    (logging hw).serialPrintln t s =
      (hw.serialPrintln t s.1, s.2 ++ [BusEvent.serialPrintln t]) := rfl

theorem high_bit_lor (a : Nat) : ¬ (0x80 ||| a) < 0x80 := by
  have h : (0x80 ||| a).testBit 7 = true := by
    rw [Nat.testBit_or]
    have : Nat.testBit 0x80 7 = true := by decide
    simp [this]
  have := Nat.testBit_implies_ge h
  omega

theorem busWritesFrom_transfers (bs : List Nat) :
    ∀ (wb sb : List Nat) (rest : List BusEvent),
      busWritesFrom wb sb (bs.map BusEvent.spiTransfer ++ rest) =
        busWritesFrom wb (sb ++ bs) rest := by
  induction bs with
  | nil => intro wb sb rest; simp
  | cons b bs ih =>
    intro wb sb rest
    simp [busWritesFrom, ih]

theorem busWritesFrom_reads (n : Nat) :
    ∀ (wb sb : List Nat) (rest : List BusEvent),
      busWritesFrom wb sb (List.replicate n BusEvent.wireRead ++ rest) =
        busWritesFrom wb sb rest := by
  induction n with
  | zero => intro wb sb rest; simp
  | succ n ih =>
    intro wb sb rest
    simp [List.replicate_succ, busWritesFrom, ih]

theorem spiTransferBuf_trace {σ : Type} (hw : Hardware σ) (l : List Nat) :
    ∀ s : σ × List BusEvent,
      (spiTransferBuf (logging hw) l s).2.2 = s.2 ++ l.map BusEvent.spiTransfer := by
  induction l with
  | nil => intro s; simp [spiTransferBuf]
  | cons b bs ih =>
    intro s
    simp [spiTransferBuf, ih]

theorem wireReadN_trace {σ : Type} (hw : Hardware σ) (n : Nat) :
    ∀ s : σ × List BusEvent,
      (wireReadN (logging hw) n s).2.2 = s.2 ++ List.replicate n BusEvent.wireRead := by
  induction n with
  | zero => intro s; simp [wireReadN]
  | succ n ih =>
    intro s
    simp [wireReadN, ih, List.replicate_succ]

/-- The bus trace of `readRegisters` carries no register write. -/
theorem readRegistersBus_trace {σ : Type} (hw : Hardware σ) (dev : LSM6DS3Class)
    (address : Nat) (data : List Nat) (length : Nat) (s : σ × List BusEvent) :
    ∃ evs, (readRegistersBus (logging hw) dev address data length s).2.2.2 = s.2 ++ evs ∧
      Emits evs [] := by
  unfold readRegistersBus
  cases hspi : dev.spi with
  | true =>
    simp only [if_true]
    refine ⟨[BusEvent.spiBeginTransaction, BusEvent.digitalWrite dev.csPin false,
      BusEvent.spiTransfer (0x80 ||| address)] ++
      (data.take length).map BusEvent.spiTransfer ++
      [BusEvent.digitalWrite dev.csPin true, BusEvent.spiEndTransaction], ?_, ?_⟩
    · simp [spiTransferBuf_trace]
    · intro wb sb rest
      refine ⟨wb, [], ?_⟩
      have hh := high_bit_lor address
      simp only [List.append_assoc, List.cons_append, List.nil_append]
      simp only [busWritesFrom]
      rw [busWritesFrom_transfers]
      cases hd : List.take length data with
      | nil => simp [busWritesFrom, spiFrameWrite]
      | cons x xs =>
        cases xs with
        | nil => simp [busWritesFrom, spiFrameWrite, hh]
        | cons y ys => simp [busWritesFrom, spiFrameWrite]
  | false =>
    simp only [Bool.false_eq_true, if_false]
    split
    · refine ⟨[BusEvent.wireBeginTransmission dev.slaveAddress, BusEvent.wireWrite address,
        BusEvent.wireEndTransmission false], ?_, ?_⟩
      · simp
      · intro wb sb rest
        exact ⟨[], sb, by simp [busWritesFrom]⟩
    · split
      · refine ⟨[BusEvent.wireBeginTransmission dev.slaveAddress, BusEvent.wireWrite address,
          BusEvent.wireEndTransmission false,
          BusEvent.wireRequestFrom dev.slaveAddress length], ?_, ?_⟩
        · simp
        · intro wb sb rest
          exact ⟨[], sb, by simp [busWritesFrom]⟩
      · refine ⟨[BusEvent.wireBeginTransmission dev.slaveAddress, BusEvent.wireWrite address,
          BusEvent.wireEndTransmission false,
          BusEvent.wireRequestFrom dev.slaveAddress length] ++
          List.replicate length BusEvent.wireRead, ?_, ?_⟩
        · simp [wireReadN_trace]
        · intro wb sb rest
          refine ⟨[], sb, ?_⟩
          simp [busWritesFrom, busWritesFrom_reads]

/-- The bus trace of `writeRegister(address, value)` carries exactly that
register write (on the serial bus for an address below 0x80). -/
theorem writeRegisterBus_trace {σ : Type} (hw : Hardware σ) (dev : LSM6DS3Class)
    (address value : Nat) (s : σ × List BusEvent) (hlow : address < 0x80) :
    ∃ evs, (writeRegisterBus (logging hw) dev address value s).2.2 = s.2 ++ evs ∧
      Emits evs [(address, value)] := by
  unfold writeRegisterBus
  cases hspi : dev.spi with
  | true =>
    simp only [if_true]
    refine ⟨[BusEvent.spiBeginTransaction, BusEvent.digitalWrite dev.csPin false,
      BusEvent.spiTransfer address, BusEvent.spiTransfer value,
      BusEvent.digitalWrite dev.csPin true, BusEvent.spiEndTransaction], ?_, ?_⟩
    · simp
    · intro wb sb rest
      exact ⟨wb, [], by simp [busWritesFrom, spiFrameWrite, hlow]⟩
  | false =>
    simp only [Bool.false_eq_true, if_false]
    refine ⟨[BusEvent.wireBeginTransmission dev.slaveAddress, BusEvent.wireWrite address,
      BusEvent.wireWrite value, BusEvent.wireEndTransmission true], ?_, ?_⟩
    · split <;> simp
    · intro wb sb rest
      exact ⟨[], sb, by simp [busWritesFrom, wireFrameWrite]⟩

theorem readRegisters_traced {σ : Type} (hw : Hardware σ) (dev : LSM6DS3Class)
    (address : Nat) (data : List Nat) (length : Nat) (w : World (σ × List BusEvent)) :
    Traced w (readRegisters (logging hw) dev address data length w).2.2 [] := by
  obtain ⟨evs, he, hE⟩ := readRegistersBus_trace hw dev address data length w.bus
  exact ⟨evs, by simpa [readRegisters, World.record] using he, hE⟩

theorem readRegister_traced {σ : Type} (hw : Hardware σ) (dev : LSM6DS3Class)
    (address : Nat) (w : World (σ × List BusEvent)) :
    Traced w (readRegister (logging hw) dev address w).2 [] := by
  unfold readRegister
  dsimp only
  split <;> exact readRegisters_traced hw dev address _ 1 w

theorem writeRegister_traced {σ : Type} (hw : Hardware σ) (dev : LSM6DS3Class)
    (address value : Nat) (w : World (σ × List BusEvent)) (hlow : address < 0x80) :
    Traced w (writeRegister (logging hw) dev address value w).2 [(address, value)] := by
  obtain ⟨evs, he, hE⟩ := writeRegisterBus_trace hw dev address value w.bus hlow
  exact ⟨evs, by simpa [writeRegister, World.record] using he, hE⟩

theorem gyroscopeAvailable_traced {σ : Type} (hw : Hardware σ) (dev : LSM6DS3Class)
    (w : World (σ × List BusEvent)) :
    Traced w (gyroscopeAvailable (logging hw) dev w).2 [] := by
  unfold gyroscopeAvailable
  dsimp only
  split <;> exact readRegister_traced hw dev _ w

theorem readGyroscope_traced {σ : Type} (hw : Hardware σ) (dev : LSM6DS3Class)
    (w : World (σ × List BusEvent)) :
    Traced w (readGyroscope (logging hw) dev w).2.2.2.2 [] := by
  unfold readGyroscope
  dsimp only
  split <;> exact readRegisters_traced hw dev _ _ 6 w

/-- The bus trace of the calibration loop carries no register write. -/
theorem calibrateLoop_traced {σ : Type} (hw : Hardware σ) (dev : LSM6DS3Class)
    (start T : Int) (fuel : Nat) :
    ∀ (n : Nat) (sx sy sz : Flt) (w : World (σ × List BusEvent))
      (r : Nat × Flt × Flt × Flt × World (σ × List BusEvent)),
      calibrateLoop (logging hw) dev start T fuel n sx sy sz w = some r →
      Traced w r.2.2.2.2 [] := by
  induction fuel with
  | zero => intro n sx sy sz w r h; simp [calibrateLoop] at h
  | succ fuel ih =>
    intro n sx sy sz w r h
    rw [calibrateLoop] at h
    have hm : Traced w (millis w).2 [] := Traced.of_bus_eq rfl
    have ha := gyroscopeAvailable_traced hw dev (millis w).2
    split at h
    · split at h
      · have hg := readGyroscope_traced hw dev (gyroscopeAvailable (logging hw) dev (millis w).2).2
        have := ((hm.trans ha).trans hg).trans (ih _ _ _ _ _ _ h)
        simpa using this
      · have := (hm.trans ha).trans (ih _ _ _ _ _ _ h)
        simpa using this
    · cases h
      exact hm

/-- The bus trace of `calibrate` carries no register write. -/
theorem calibrate_traced {σ : Type} (hw : Hardware σ) (dev : LSM6DS3Class)
    (T : Int) (fuel : Nat) (w : World (σ × List BusEvent))
    (r : Bool × LSM6DS3Class × World (σ × List BusEvent))
    (h : calibrate (logging hw) fuel T dev w = some r) : Traced w r.2.2 [] := by
  unfold calibrate at h
  dsimp only at h
  split at h
  · cases h
  · rename_i samples sx sy sz w1 hloop
    have hm : Traced w (millis w).2 [] := Traced.of_bus_eq rfl
    have hl := calibrateLoop_traced hw dev _ _ _ _ _ _ _ _ _ hloop
    have hw1 : Traced w w1 [] := by simpa using hm.trans hl
    split at h
    · cases h
      have hp : Traced w1
          (w1.onBus ((logging hw).serialPrintln "Not enough samples to calibrate IMU!")) [] :=
        ⟨[BusEvent.serialPrintln "Not enough samples to calibrate IMU!"],
          by simp [World.onBus], fun wb sb rest => ⟨wb, sb, by simp [busWritesFrom]⟩⟩
      simpa using hw1.trans hp
    · cases h
      exact hw1

/-- The bus trace of the FIFO set-up carries its three register writes. -/
theorem configureFifo_traced {σ : Type} (hw : Hardware σ) (dev : LSM6DS3Class)
    (w : World (σ × List BusEvent)) :
    Traced w (configureFifo (logging hw) dev w)
      [(0x12, byteOf (readRegister (logging hw) dev LSM6DS3_CTRL3_C w).1 ||| 0x40),
       (0x08, 0x11), (0x0A, 0x26)] := by
  have hr := readRegister_traced hw dev LSM6DS3_CTRL3_C w
  have h1 := writeRegister_traced hw dev LSM6DS3_CTRL3_C
    (byteOf (readRegister (logging hw) dev LSM6DS3_CTRL3_C w).1 ||| 0x40)
    (readRegister (logging hw) dev LSM6DS3_CTRL3_C w).2 (by decide)
  have h2 := writeRegister_traced hw dev LSM6DS3_FIFO_CTRL3 0x11
    (writeRegister (logging hw) dev LSM6DS3_CTRL3_C
      (byteOf (readRegister (logging hw) dev LSM6DS3_CTRL3_C w).1 ||| 0x40)
      (readRegister (logging hw) dev LSM6DS3_CTRL3_C w).2).2 (by decide)
  have h3 := writeRegister_traced hw dev LSM6DS3_FIFO_CTRL5 0x26
    (writeRegister (logging hw) dev LSM6DS3_FIFO_CTRL3 0x11
      (writeRegister (logging hw) dev LSM6DS3_CTRL3_C
        (byteOf (readRegister (logging hw) dev LSM6DS3_CTRL3_C w).1 ||| 0x40)
        (readRegister (logging hw) dev LSM6DS3_CTRL3_C w).2).2).2 (by decide)
  have := ((hr.trans h1).trans h2).trans h3
  simpa [configureFifo, byteOf, LSM6DS3_CTRL3_C, LSM6DS3_FIFO_CTRL3, LSM6DS3_FIFO_CTRL5]
    using this

/-- The transport start-up of `begin` puts no register write on an idle bus and
leaves it idle. -/
theorem beginTransport_trace {σ : Type} (hw : Hardware σ) (dev : LSM6DS3Class)
    (w : World (σ × List BusEvent)) :
    ∃ pre0, (beginTransport (logging hw) dev w).bus.2 = w.bus.2 ++ pre0 ∧
      ∀ rest, busWritesFrom [] [] (pre0 ++ rest) = busWritesFrom [] [] rest := by
  unfold beginTransport
  cases hspi : dev.spi with
  | true =>
    exact ⟨[BusEvent.pinMode dev.csPin true, BusEvent.digitalWrite dev.csPin true,
      BusEvent.spiBegin], by simp [World.onBus],
      fun rest => by simp [busWritesFrom, spiFrameWrite]⟩
  | false =>
    exact ⟨[BusEvent.wireBegin], by simp [World.onBus], fun rest => by simp [busWritesFrom]⟩

theorem busWrites_after_start (pre0 evs : List BusEvent) (out : List (Nat × Nat))
    (h0 : ∀ rest, busWritesFrom [] [] (pre0 ++ rest) = busWritesFrom [] [] rest)
    (hE : Emits evs out) : busWrites (pre0 ++ evs) = out := by
  unfold busWrites
  rw [h0]
  exact hE.busWrites [] []

/-- C4. For every transport, observed through the transport-logging double
around arbitrary hardware: if the identity read yields 0x69 then `begin`
returns 1 (once the clock script closes the 250 ms calibration window), and the
register writes decoded from its bus trace are exactly (0x11, 0x4C),
(0x10, 0x4A), (0x17, 0x05), followed, when `useFIFO` is set, by
(0x12, c | 0x40), (0x08, 0x11), (0x0A, 0x26), where `c` is the byte read back
from register 0x12 (bit 6 set, every other bit kept).  The trace up to the
return of the identity read (`pre`) carries no write; the trace up to the end
of the calibration (`pre ++ mid`) carries the three configuration writes.  The
ghost access trace agrees: identity read, three writes, reads only, then the
FIFO read-modify-write. -/
theorem begin_configures {σ : Type} (hw : Hardware σ) (dev : LSM6DS3Class)
    (useFIFO : Bool) (w : World (σ × List BusEvent)) (k : Nat)
    (hid : (readRegister (logging hw) dev LSM6DS3_WHO_AM_I_REG
      (beginTransport (logging hw) dev w)).1 = 0x69)
    (hclose : windowClosedAt (logging hw) 250 w k = true) :
    ∃ (dev' : LSM6DS3Class) (w4 w' : World (σ × List BusEvent))
      (pre mid post : List BusEvent) (cal : List Access),
      (readRegister (logging hw) dev LSM6DS3_WHO_AM_I_REG
        (beginTransport (logging hw) dev w)).2.bus.2 = w.bus.2 ++ pre ∧
      busWrites pre = [] ∧
      w4.bus.2 = w.bus.2 ++ (pre ++ mid) ∧
      busWrites (pre ++ mid) = [(0x11, 0x4C), (0x10, 0x4A), (0x17, 0x05)] ∧
      w'.bus.2 = w.bus.2 ++ (pre ++ mid ++ post) ∧
      busWrites (pre ++ mid ++ post) =
        [(0x11, 0x4C), (0x10, 0x4A), (0x17, 0x05)] ++
          (if useFIFO then
            [(0x12, byteOf (readRegister (logging hw) dev LSM6DS3_CTRL3_C w4).1 ||| 0x40),
             (0x08, 0x11), (0x0A, 0x26)]
           else []) ∧
      ((readRegisters (logging hw) dev LSM6DS3_CTRL3_C (stackBuf (logging hw) w4.bus 1) 1
          w4).1 = 1 →
        byteOf (readRegister (logging hw) dev LSM6DS3_CTRL3_C w4).1 =
          deliveredByte (logging hw) dev 0x12 w4.bus) ∧
      (∀ i, (byteOf (readRegister (logging hw) dev LSM6DS3_CTRL3_C w4).1 ||| 0x40).testBit i =
        ((byteOf (readRegister (logging hw) dev LSM6DS3_CTRL3_C w4).1).testBit i ||
          decide (i = 6))) ∧
      (∀ fuel, k + 1 ≤ fuel → begin (logging hw) fuel useFIFO dev w = some (1, dev', w')) ∧
      writesOf cal = [] ∧
      w4.log = w.log ++ [Access.read 0x0F 1, Access.write 0x11 0x4C, Access.write 0x10 0x4A,
        Access.write 0x17 0x05] ++ cal ∧
      w'.log = w4.log ++
        (if useFIFO then
          [Access.read 0x12 1,
           Access.write 0x12
             (byteOf (readRegister (logging hw) dev LSM6DS3_CTRL3_C w4).1 ||| 0x40),
           Access.write 0x08 0x11, Access.write 0x0A 0x26]
         else []) := by
  -- the worlds `begin` goes through up to the call of `calibrate(250)`
  have hw0 := beginTransport_world (logging hw) dev w
  have hwho := readRegister_world (logging hw) dev LSM6DS3_WHO_AM_I_REG
    (beginTransport (logging hw) dev w)
  have hw1 := writeRegister_world (logging hw) dev LSM6DS3_CTRL2_G 0x4C
    (readRegister (logging hw) dev LSM6DS3_WHO_AM_I_REG (beginTransport (logging hw) dev w)).2
  have hw2 := writeRegister_world (logging hw) dev LSM6DS3_CTRL1_XL 0x4A
    (writeRegister (logging hw) dev LSM6DS3_CTRL2_G 0x4C
      (readRegister (logging hw) dev LSM6DS3_WHO_AM_I_REG
        (beginTransport (logging hw) dev w)).2).2
  have hw3 := writeRegister_world (logging hw) dev LSM6DS3_CTRL8_XL 0x05
    (writeRegister (logging hw) dev LSM6DS3_CTRL1_XL 0x4A
      (writeRegister (logging hw) dev LSM6DS3_CTRL2_G 0x4C
        (readRegister (logging hw) dev LSM6DS3_WHO_AM_I_REG
          (beginTransport (logging hw) dev w)).2).2).2
  have hclose3 : windowClosedAt (logging hw) 250
      (writeRegister (logging hw) dev LSM6DS3_CTRL8_XL 0x05
        (writeRegister (logging hw) dev LSM6DS3_CTRL1_XL 0x4A
          (writeRegister (logging hw) dev LSM6DS3_CTRL2_G 0x4C
            (readRegister (logging hw) dev LSM6DS3_WHO_AM_I_REG
              (beginTransport (logging hw) dev w)).2).2).2).2 k = true := by
    unfold windowClosedAt at hclose ⊢
    rw [hw3.2.1, hw3.2.2, hw2.2.1, hw2.2.2, hw1.2.1, hw1.2.2, hwho.2.1, hwho.2.2, hw0.2.1,
      hw0.2.2]
    exact hclose
  obtain ⟨b, dev1, w4, cal, hcal, hs, ha, hc, hlog, hwr⟩ :=
    calibrate_returns (logging hw) dev 250 _ k hclose3
  -- bus traces
  obtain ⟨pre0, hpre0, hidle⟩ := beginTransport_trace hw dev w
  obtain ⟨eid, heid, hEid⟩ := readRegister_traced hw dev LSM6DS3_WHO_AM_I_REG
    (beginTransport (logging hw) dev w)
  have t1 := writeRegister_traced hw dev LSM6DS3_CTRL2_G 0x4C
    (readRegister (logging hw) dev LSM6DS3_WHO_AM_I_REG (beginTransport (logging hw) dev w)).2
    (by decide)
  have t2 := writeRegister_traced hw dev LSM6DS3_CTRL1_XL 0x4A
    (writeRegister (logging hw) dev LSM6DS3_CTRL2_G 0x4C
      (readRegister (logging hw) dev LSM6DS3_WHO_AM_I_REG
        (beginTransport (logging hw) dev w)).2).2 (by decide)
  have t3 := writeRegister_traced hw dev LSM6DS3_CTRL8_XL 0x05
    (writeRegister (logging hw) dev LSM6DS3_CTRL1_XL 0x4A
      (writeRegister (logging hw) dev LSM6DS3_CTRL2_G 0x4C
        (readRegister (logging hw) dev LSM6DS3_WHO_AM_I_REG
          (beginTransport (logging hw) dev w)).2).2).2 (by decide)
  have tcal := calibrate_traced hw dev 250 (k + 1) _ _ (hcal (k + 1) (le_refl _))
  obtain ⟨mid, hmid, hEmid⟩ := ((t1.trans t2).trans t3).trans tcal
  have tfifo : Traced w4 (if useFIFO then configureFifo (logging hw) dev w4 else w4)
      (if useFIFO then
        [(0x12, byteOf (readRegister (logging hw) dev LSM6DS3_CTRL3_C w4).1 ||| 0x40),
         (0x08, 0x11), (0x0A, 0x26)]
       else []) := by
    cases useFIFO
    · exact Traced.refl w4
    · exact configureFifo_traced hw dev w4
  obtain ⟨post, hpost, hEpost⟩ := tfifo
  have hlog4 : w4.log = w.log ++ [Access.read 0x0F 1, Access.write 0x11 0x4C,
      Access.write 0x10 0x4A, Access.write 0x17 0x05] ++ cal := by
    rw [hlog, hw3.1, hw2.1, hw1.1, hwho.1, hw0.1]
    simp [LSM6DS3_WHO_AM_I_REG, LSM6DS3_CTRL2_G, LSM6DS3_CTRL1_XL, LSM6DS3_CTRL8_XL]
  have hfifo : configureFifo (logging hw) { dev1 with fifoEnabled := useFIFO } w4 =
      configureFifo (logging hw) dev w4 := configureFifo_transport (logging hw) _ dev hs ha hc w4
  refine ⟨{ dev1 with fifoEnabled := useFIFO }, w4,
    if useFIFO then configureFifo (logging hw) dev w4 else w4, pre0 ++ eid, mid, post, cal,
    ?_, ?_, ?_, ?_, ?_, ?_, ?_, ?_, ?_, hwr, hlog4, ?_⟩
  · rw [heid, hpre0, List.append_assoc]
  · exact busWrites_after_start pre0 eid [] hidle hEid
  · simp only at hmid
    rw [hmid, heid, hpre0]
    simp
  · have := busWrites_after_start pre0 (eid ++ mid) _ hidle (hEid.append hEmid)
    simpa [LSM6DS3_CTRL2_G, LSM6DS3_CTRL1_XL, LSM6DS3_CTRL8_XL] using this
  · simp only at hmid
    rw [hpost, hmid, heid, hpre0]
    simp
  · have := busWrites_after_start pre0 (eid ++ mid ++ post) _ hidle
      ((hEid.append hEmid).append hEpost)
    simpa [LSM6DS3_CTRL2_G, LSM6DS3_CTRL1_XL, LSM6DS3_CTRL8_XL] using this
  · intro hok
    obtain ⟨s, hs256, hval, hbuf⟩ := (readRegister_value (logging hw) dev LSM6DS3_CTRL3_C w4).2 hok
    have hdel := readRegisters_one_byte (logging hw) dev LSM6DS3_CTRL3_C w4 hok
    rw [hbuf] at hdel
    rw [hval, byteOf_byte s hs256]
    simpa [LSM6DS3_CTRL3_C] using hdel
  · intro i
    exact or_bit6 _ i
  · intro fuel hfuel
    have hne : ¬ ((readRegister (logging hw) dev LSM6DS3_WHO_AM_I_REG
        (beginTransport (logging hw) dev w)).1 ≠ 0x69) := by simp [hid]
    simp only [begin, if_neg hne, hcal fuel hfuel]
    cases useFIFO <;> simp [hfifo]
  · cases useFIFO
    · simp
    · simp [configureFifo_log, LSM6DS3_CTRL3_C, LSM6DS3_FIFO_CTRL3, LSM6DS3_FIFO_CTRL5]

/-- C4, instance: the sensor at rest on the two-wire transport behind the
logging double, FIFO requested, window closed at its third test.  Control
register 3 reads 0x04, so the value written back is 0x44; the decoded bus
trace is the six writes, on the serial transport as well. -/
theorem begin_configures_witness :
    (∃ (dev' : LSM6DS3Class) (w4 w' : World (Sim × List BusEvent))
      (pre mid post : List BusEvent) (cal : List Access),
      (readRegister (logging simHw) (wireDev (Flt.num 0) (Flt.num 0) (Flt.num 0))
        LSM6DS3_WHO_AM_I_REG
        (beginTransport (logging simHw) (wireDev (Flt.num 0) (Flt.num 0) (Flt.num 0))
          loggedRestWorld)).2.bus.2 = loggedRestWorld.bus.2 ++ pre ∧
      busWrites pre = [] ∧
      w4.bus.2 = loggedRestWorld.bus.2 ++ (pre ++ mid) ∧
      busWrites (pre ++ mid) = [(0x11, 0x4C), (0x10, 0x4A), (0x17, 0x05)] ∧
      w'.bus.2 = loggedRestWorld.bus.2 ++ (pre ++ mid ++ post) ∧
      busWrites (pre ++ mid ++ post) =
        [(0x11, 0x4C), (0x10, 0x4A), (0x17, 0x05)] ++
          (if true = true then
            [(0x12, byteOf (readRegister (logging simHw)
                (wireDev (Flt.num 0) (Flt.num 0) (Flt.num 0)) LSM6DS3_CTRL3_C w4).1 ||| 0x40),
             (0x08, 0x11), (0x0A, 0x26)]
           else []) ∧
      ((readRegisters (logging simHw) (wireDev (Flt.num 0) (Flt.num 0) (Flt.num 0))
          LSM6DS3_CTRL3_C (stackBuf (logging simHw) w4.bus 1) 1 w4).1 = 1 →
        byteOf (readRegister (logging simHw) (wireDev (Flt.num 0) (Flt.num 0) (Flt.num 0))
          LSM6DS3_CTRL3_C w4).1 =
          deliveredByte (logging simHw) (wireDev (Flt.num 0) (Flt.num 0) (Flt.num 0)) 0x12
            w4.bus) ∧
      (∀ i, (byteOf (readRegister (logging simHw) (wireDev (Flt.num 0) (Flt.num 0) (Flt.num 0))
          LSM6DS3_CTRL3_C w4).1 ||| 0x40).testBit i =
        ((byteOf (readRegister (logging simHw) (wireDev (Flt.num 0) (Flt.num 0) (Flt.num 0))
          LSM6DS3_CTRL3_C w4).1).testBit i || decide (i = 6))) ∧
      (∀ fuel, 2 + 1 ≤ fuel →
        begin (logging simHw) fuel true (wireDev (Flt.num 0) (Flt.num 0) (Flt.num 0))
          loggedRestWorld = some (1, dev', w')) ∧
      writesOf cal = [] ∧
      w4.log = loggedRestWorld.log ++ [Access.read 0x0F 1, Access.write 0x11 0x4C,
        Access.write 0x10 0x4A, Access.write 0x17 0x05] ++ cal ∧
      w'.log = w4.log ++
        (if true = true then
          [Access.read 0x12 1,
           Access.write 0x12
             (byteOf (readRegister (logging simHw)
               (wireDev (Flt.num 0) (Flt.num 0) (Flt.num 0)) LSM6DS3_CTRL3_C w4).1 ||| 0x40),
           Access.write 0x08 0x11, Access.write 0x0A 0x26]
         else [])) ∧
    (begin (logging simHw) 3 true (wireDev (Flt.num 0) (Flt.num 0) (Flt.num 0))
        loggedRestWorld).map (fun r => (r.1, busWrites r.2.2.bus.2)) =
      some (1, [(0x11, 0x4C), (0x10, 0x4A), (0x17, 0x05), (0x12, 0x44), (0x08, 0x11),
        (0x0A, 0x26)]) ∧
    (begin (logging simHw) 3 true (spiDev (Flt.num 0) (Flt.num 0) (Flt.num 0))
        loggedRestWorld).map (fun r => (r.1, busWrites r.2.2.bus.2)) =
      some (1, [(0x11, 0x4C), (0x10, 0x4A), (0x17, 0x05), (0x12, 0x44), (0x08, 0x11),
        (0x0A, 0x26)]) :=
  ⟨begin_configures simHw (wireDev (Flt.num 0) (Flt.num 0) (Flt.num 0)) true loggedRestWorld 2
      (by decide) (by decide), by decide, by decide⟩

end LSM6DS3
